import Mathlib

/-!
Shallow embedding of the DevHouse2025 backend core, the parts the
specification's claims talk about:

* `face.py` — per-frame identity smoothing, locking and auto-enrollment
  (`find_best_match`, the `ws_embedding` frame loop, modelled as
  `processFrame` over one track);
* `stm.py` — `ShortTermMemory`, the TTL/size-bounded short-term transcript;
* `networking_orchestrator_agent.py` — `ConversationOrchestrator.handle_event`
  with its cadence gates, person switching, coaching and memory storage.

Machine floats of the source are modelled with `ℚ`; wall-clock reads
(`time.time()`) are explicit `now : ℚ` parameters; every fallible external
call (database, memory service, LLM tools) is a function returning
`Except String _`, mirroring Python's raise/except flow.  External calls
performed during a step are recorded in an explicit trace so that claims
about "the call is invoked / is not invoked" are statable.
-/

/-- Python `x or default` for an optional string field: `None` and `""` are
falsy and replaced by the default. -/
def strOr (o : Option String) (d : String) : String :=
  match o with
  | none => d
  | some s => if s = "" then d else s

/-- Python truthiness of an optional string (`None` and `""` are falsy). -/
def optTruthy (o : Option String) : Bool :=
  match o with
  | none => false
  | some s => s != ""

/-- Python `x or default` for an optional rational field (`None` and `0.0`
are falsy). -/
def ratOr (o : Option ℚ) (d : ℚ) : ℚ :=
  match o with
  | none => d
  | some q => if q = 0 then d else q

/-- `collections.deque(maxlen := cap)` append: push on the right, dropping
from the left once the capacity is exceeded. -/
def dequeAppend (cap : Nat) (buf : List α) (x : α) : List α :=
  let b := buf ++ [x]
  b.drop (b.length - cap)

/-- Python dict assignment `d[k] = v` on an insertion-ordered dict: update in
place if the key exists, else append at the end. -/
def dictInsert (l : List (String × α)) (k : String) (v : α) : List (String × α) :=
  if l.any (fun p => p.1 == k) then l.map (fun p => if p.1 == k then (k, v) else p)
  else l ++ [(k, v)]

/-- Python `d.get(k)`: `None` when the key is absent. -/
def dictGet? (l : List (String × α)) (k : String) : Option α :=
  (l.find? (fun p => p.1 == k)).map (fun p => p.2)

/-- Python substring test `needle in hay`. -/
def containsSub (hay needle : String) : Bool :=
  (List.range (hay.data.length + 1)).any (fun i => needle.data.isPrefixOf (hay.data.drop i))

/-- Python `str.strip()`: drop whitespace from both ends. -/
def pythonStrip (s : String) : String :=
  ⟨((s.data.dropWhile Char.isWhitespace).reverse.dropWhile Char.isWhitespace).reverse⟩

/-- Python `str.lower()`. -/
def pythonLower (s : String) : String := ⟨s.data.map Char.toLower⟩

/-- `str(e)[:180]`, the truncation applied to exception messages. -/
def truncMsg (e : String) : String := ⟨e.data.take 180⟩

/-! ## face.py — identity smoothing, locking, enrollment -/

abbrev Emb := List ℚ

def SCORE_WINDOW : Nat := 8
def STABLE_FRAMES : Nat := 3
def ENROLL_FRAMES : Nat := 12
def MATCH_THRESHOLD : ℚ := 0.45

/-- `cosine_similarity(a, b) = float(np.dot(a, b))` — the source relies on
the embeddings being unit-normalized, so this is a plain dot product. -/
def cosine_similarity (a b : Emb) : ℚ :=
  (List.zipWith (fun x y => x * y) a b).sum

/-- `find_best_match`: scan `KNOWN_EMBEDDINGS` in insertion order, keeping
the entry with strictly greater similarity than the current best, starting
from `(None, -1.0)`. -/
def find_best_match (known : List (String × Emb)) (embedding : Emb) : Option String × ℚ :=
  known.foldl
    (fun best p =>
      let score := cosine_similarity embedding p.2
      if score > best.2 then (some p.1, score) else best)
    (none, -1)

/-- `default_contact_name`: `"new_person_" + person_id.split("-")[0]`. -/
def default_contact_name (person_id : String) : String :=
  "new_person_" ++ ((person_id.splitOn "-").headD person_id)

/-- Per-track state (`tracks[track_id]` in the source). `locked_id` is
`none` before the first lock; the source's `"UNKNOWN"` string sentinel is
kept as-is. -/
structure Track where
  score_buffer : List ℚ := []
  id_buffer : List String := []
  enroll_buffer : List Emb := []
  locked_id : Option String := none
deriving Repr, DecidableEq

/-- The candidate pushed into `id_buffer`:
`best_id if (best_id is not None and score >= MATCH_THRESHOLD) else "UNKNOWN"`. -/
def candidateOf (bm : Option String × ℚ) : String :=
  match bm.1 with
  | some pid => if bm.2 ≥ MATCH_THRESHOLD then pid else "UNKNOWN"
  | none => "UNKNOWN"

/-- `set(id_buffer)` collapsed to its single element when unanimous. -/
def uniqueValue : List String → Option String
  | [] => none
  | x :: xs => if xs.all (fun y => y == x) then some x else none

/-- The locking step: once `id_buffer` holds exactly `STABLE_FRAMES`
entries, a unanimous window overwrites `locked_id`; otherwise the previous
lock is kept. -/
def lockUpdate (locked : Option String) (ib : List String) : Option String :=
  if ib.length = STABLE_FRAMES then
    match uniqueValue ib with
    | some x => some x
    | none => locked
  else locked

/-- `float(np.mean(l))` over the score buffer. -/
def listMean (l : List ℚ) : ℚ := l.sum / (l.length : ℚ)

/-- `np.mean(enroll_buffer, axis=0)` — coordinatewise mean of the buffered
embeddings. -/
def meanVec (l : List Emb) : Emb :=
  match l with
  | [] => []
  | v :: _ => (List.range v.length).map
      (fun i => ((l.map (fun w => w.getD i 0)).sum) / (l.length : ℚ))

/-- External persistence collaborator of the frame loop (`facedb.py` via
`asyncpg`); each call may raise, modelled as `Except`. -/
structure FaceDB where
  insert_contact_with_embedding : String → String → Emb → Except String Unit
  touch_contact : String → Except String Unit
  update_meeting_person : String → String → Except String Unit
  insert_meeting_session : String → Except String Unit

/-- The per-frame JSON reply of `ws_embedding` (success case). -/
structure FaceReply where
  track_id : String
  best_match : Option String
  best_match_name : Option String
  score : ℚ
  smooth_score : ℚ
  identity : Option String
  identity_name : Option String
  enrolled : Bool
  new_person_id : Option String
  new_person_name : Option String
  session_id : Option String
deriving Repr, DecidableEq

/-- Result of one frame: the (possibly mutated) global known set and names,
the updated track, and the reply — `.error msg` models the generic
`except Exception` reply `{"track_id": ..., "error": str(e)}`. -/
structure FrameOut where
  known : List (String × Emb)
  names : List (String × String)
  track : Track
  response : Except String FaceReply
deriving Repr

/-- Lines 197–225 of `face.py`: resolve the identity, touch the contact /
attach the meeting session (each call may raise), and build the reply. -/
def frameReply (db : FaceDB) (names : List (String × String))
    (t : Track) (track_id : String) (session_id : Option String)
    (bm : Option String × ℚ) (smooth : ℚ)
    (enrolled : Bool) (new_person_id new_person_name : Option String) :
    Except String FaceReply :=
  let resolved : Option String := if t.locked_id = some "UNKNOWN" then none else t.locked_id
  let step6 : Except String Unit :=
    if optTruthy resolved then
      match db.touch_contact (resolved.getD "") with
      | .error e => .error e
      | .ok _ =>
        if optTruthy session_id then
          db.update_meeting_person (session_id.getD "") (resolved.getD "")
        else .ok ()
    else
      if optTruthy session_id then db.insert_meeting_session (session_id.getD "")
      else .ok ()
  match step6 with
  | .error e => .error e
  | .ok _ =>
    .ok {
      track_id := track_id
      best_match := bm.1
      best_match_name :=
        match bm.1 with
        | some b => if b ≠ "" then dictGet? names b else none
        | none => none
      score := bm.2
      smooth_score := smooth
      identity := t.locked_id
      identity_name :=
        match t.locked_id with
        | some l => if l ≠ "" ∧ l ≠ "UNKNOWN" then dictGet? names l else none
        | none => none
      enrolled := enrolled
      new_person_id := new_person_id
      new_person_name := new_person_name
      session_id := session_id }

/-- Package the frame outcome: the mutations survive whether or not the
reply-side database calls of `frameReply` raise. -/
def finishFrame (db : FaceDB) (known : List (String × Emb)) (names : List (String × String))
    (t : Track) (track_id : String) (session_id : Option String)
    (bm : Option String × ℚ) (smooth : ℚ)
    (enrolled : Bool) (new_person_id new_person_name : Option String) : FrameOut :=
  ⟨known, names, t,
    frameReply db names t track_id session_id bm smooth enrolled new_person_id new_person_name⟩

/-- One iteration of the `ws_embedding` loop for an existing track, after
the (external) embedding computation: matching, vote smoothing, locking,
enrollment accumulation, auto-enrollment, and the database updates.
`l2norm` stands for `l2_normalize`, whose Euclidean norm is a square root
and hence not representable over `ℚ`; every claim below is proved for an
arbitrary such map.  `freshId` models the fresh `uuid4` drawn by
`next_person_id`. -/
def processFrame (db : FaceDB) (l2norm : Emb → Emb) (freshId : String)
    (known : List (String × Emb)) (names : List (String × String))
    (t : Track) (embedding : Emb) (session_id : Option String) (track_id : String) : FrameOut :=
  let bm := find_best_match known embedding
  let sb := dequeAppend SCORE_WINDOW t.score_buffer bm.2
  let ib := dequeAppend STABLE_FRAMES t.id_buffer (candidateOf bm)
  let smooth := listMean sb
  let locked1 := lockUpdate t.locked_id ib
  let eb := if locked1 = some "UNKNOWN" then t.enroll_buffer ++ [embedding] else t.enroll_buffer
  if locked1 = some "UNKNOWN" ∧ eb.length ≥ ENROLL_FRAMES then
    let E := l2norm (meanVec eb)
    let bm2 := find_best_match known E
    if bm2.1 = none ∨ bm2.2 < MATCH_THRESHOLD then
      let nid := freshId
      let nname := default_contact_name nid
      match db.insert_contact_with_embedding nid nname E with
      | .error e => ⟨known, names, ⟨sb, ib, eb, locked1⟩, .error e⟩
      | .ok _ =>
        let known2 := dictInsert known nid E
        let names2 := dictInsert names nid nname
        finishFrame db known2 names2 ⟨sb, ib, [], some nid⟩ track_id session_id bm smooth
          true (some nid) (some nname)
    else
      finishFrame db known names ⟨sb, ib, [], locked1⟩ track_id session_id bm smooth
        false none none
  else
    finishFrame db known names ⟨sb, ib, eb, locked1⟩ track_id session_id bm smooth
      false none none

/-! ## stm.py — ShortTermMemory -/

/-- An entry of `SessionState.utterances` (`Utterance` TypedDict). -/
structure UttEntry where
  speaker : String
  text : String
  ts : ℚ
deriving Repr, DecidableEq

/-- `Topic` TypedDict. -/
structure TopicEntry where
  label : String
  confidence : ℚ
deriving Repr, DecidableEq

/-- `CoachAction` TypedDict. -/
structure CoachActionEntry where
  action_type : String
  payload : List (String × String)
deriving Repr, DecidableEq

/-- `SessionState.__init__` plus its mutable fields.  The capacity of the
`deque` is enforced at each push (`dequeAppend`). -/
structure SessionState where
  active_person_id : Option String := none
  utterances : List UttEntry := []
  topic : Option TopicEntry := none
  last_coach_action : Option CoachActionEntry := none
  expires_at : ℚ
  ttl_seconds : ℚ
deriving Repr, DecidableEq

/-- `ShortTermMemory.__init__` defaults plus the `_store` dict. -/
structure ShortTermMemory where
  ttl_seconds : ℚ := 300
  max_utterances : Nat := 80
  store : List (String × SessionState) := []
deriving Repr, DecidableEq

namespace ShortTermMemory

/-- A fresh `SessionState(max_utterances, ttl_seconds)` at time `now`. -/
def freshSession (m : ShortTermMemory) (now : ℚ) : SessionState :=
  { expires_at := now + m.ttl_seconds, ttl_seconds := m.ttl_seconds }

/-- `_get_state`: look up the session; replace it with a fresh one when
missing or expired, else refresh the TTL (`touch`).  `now` models the
`time.time()` read.  Returns the live state and the updated store. -/
def get_state (m : ShortTermMemory) (session_id : String) (now : ℚ) :
    SessionState × ShortTermMemory :=
  match dictGet? m.store session_id with
  | some st =>
    if st.expires_at ≤ now then
      let st' := m.freshSession now
      (st', { m with store := dictInsert m.store session_id st' })
    else
      let st' := { st with expires_at := now + st.ttl_seconds }
      (st', { m with store := dictInsert m.store session_id st' })
  | none =>
    let st' := m.freshSession now
    (st', { m with store := dictInsert m.store session_id st' })

/-- `append_utterance(session_id, speaker, text, ts=None)`: silently a
no-op unless the speaker is `"user"` or `"other"`. -/
def append_utterance (m : ShortTermMemory) (session_id speaker text : String)
    (ts : Option ℚ) (now : ℚ) : ShortTermMemory :=
  if speaker ≠ "user" ∧ speaker ≠ "other" then m
  else
    let (st, m') := m.get_state session_id now
    let st' := { st with
      utterances := dequeAppend m.max_utterances st.utterances ⟨speaker, text, ts.getD now⟩ }
    { m' with store := dictInsert m'.store session_id st' }

/-- `set_active_person`. -/
def set_active_person (m : ShortTermMemory) (session_id : String)
    (person_id : Option String) (now : ℚ) : ShortTermMemory :=
  let (st, m') := m.get_state session_id now
  let st' :=
    if st.active_person_id ≠ person_id then
      { st with utterances := [], topic := none, last_coach_action := none,
                active_person_id := person_id }
    else st
  { m' with store := dictInsert m'.store session_id st' }

/-- The projection returned by `summary`: last 6 utterances, topic, last
coach action. -/
structure Summary where
  active_person_id : Option String
  utterances : List UttEntry
  topic : Option TopicEntry
  last_coach_action : Option CoachActionEntry
deriving Repr, DecidableEq

/-- `summary(session_id)` — the read also touches the TTL through
`_get_state`, so the updated store is returned alongside. -/
def summary (m : ShortTermMemory) (session_id : String) (now : ℚ) :
    Summary × ShortTermMemory :=
  let (st, m') := m.get_state session_id now
  (⟨st.active_person_id, st.utterances.drop (st.utterances.length - 6),
    st.topic, st.last_coach_action⟩, m')

end ShortTermMemory

/-! ## networking_orchestrator_agent.py — ConversationOrchestrator -/

/-- A transcript entry of `state.stm_dialogue["utterances"]`. -/
structure Utt where
  speaker : String
  utterance : String
deriving Repr, DecidableEq

/-- Opaque person-context dict: `{}`, the empty default substituted on a
failed fetch, or an external payload (identified by a number). -/
inductive Ctx where
  | empty : Ctx
  | defaultFor (person_id : String) : Ctx
  | data (d : Nat) : Ctx
deriving Repr, DecidableEq

/-- Opaque recent-topics dict: the initial
`{"name": "No conversation yet", "ideas": []}` or an external payload. -/
inductive Topics where
  | noConversation : Topics
  | data (d : Nat) : Topics
deriving Repr, DecidableEq

/-- The structured signals accumulated during `handle_event`. -/
inductive Signal where
  | person_switched (person_id : String) : Signal
  | errorSig (whereName : String) (msg : String) : Signal
  | recognized_name (name : String) : Signal
  | meeting_summary_saved : Signal
  | recent_topics_updated : Signal
deriving Repr, DecidableEq

/-- External collaborator calls issued during a step, recorded so that
claims about invocation cadence are statable. -/
inductive TraceEv where
  | retrieveContext (person_id : String) : TraceEv
  | summarizeTopics : TraceEv
  | recognizeName : TraceEv
  | coachDecide : TraceEv
  | storeFact (key : String) : TraceEv
  | storeMeeting : TraceEv
deriving Repr, DecidableEq

/-- Result dict of `recognize_person_name` (fields may be missing). -/
structure NameRes where
  name : Option String := none
  confidence : Option ℚ := none
deriving Repr, DecidableEq

/-- One memory candidate of the coaching decision (raw dict fields). -/
structure Cand where
  ctype : Option String := none
  key : Option String := none
  value : Option String := none
  confidence : Option ℚ := none
  evidence : Option String := none
deriving Repr, DecidableEq

/-- Result dict of `coach_and_decide` (fields may be missing). -/
structure Decision where
  hint : Option String := none
  followups : Option (List String) := none
  should_store : Option Bool := none
  memory_candidates : Option (List Cand) := none
  tags : Option (List String) := none
deriving Repr, DecidableEq

/-- The external tools consumed by the orchestrator (`AgentTools` plus
`tools.memory_service.store_person_fact`); every call can raise. -/
structure Tools where
  retrieve_person_context : String → Nat → ℚ → Except String Nat
  summarize_recent_topics : List Utt → Except String Nat
  recognize_person_name : List Utt → Except String NameRes
  coach_and_decide : Ctx → List Utt → Topics → String → Option String → Except String Decision
  store_person_fact : String → String → String → ℚ → String → String → List String → Except String Nat
  store_meeting_summary : String → List Utt → Except String Unit

/-- `OrchestratorState` together with the orchestrator's two internal
turn counters (`_turns_since_topic`, `_turns_since_context`), which in the
source live on the `ConversationOrchestrator` instance. -/
structure OrchState where
  active_person_id : Option String := none
  stm_utterances : List Utt := []
  person_context : Ctx := .empty
  recent_topics : Topics := .noConversation
  last_coach_ts : ℚ := 0
  last_topic_ts : ℚ := 0
  last_speaker : String := ""
  turn_count_since_coach : Nat := 0
  recognized_name : Option String := none
  turns_since_topic : Nat := 0
  turns_since_context : Nat := 0
deriving Repr, DecidableEq

/-- `ConversationOrchestrator.__init__` keyword arguments. -/
structure OrchConfig where
  coach_min_interval_sec : ℚ := 1.2
  coach_turns_interval : Nat := 2
  topic_refresh_turns : Nat := 6
  context_refresh_turns : Nat := 6
  fact_limit : Nat := 8
  threshold : ℚ := 0.4
deriving Repr, DecidableEq

/-- Events consumed by `handle_event`. -/
inductive Event where
  | person_detected (person_id : Option String) : Event
  | utterance_final (speaker : Option String) (utterance : Option String) : Event
  | conversation_end : Event
deriving Repr, DecidableEq

def Event.isUtteranceFinal : Event → Bool
  | .utterance_final _ _ => true
  | _ => false

/-- `{"hint": ..., "followups": ...}`. -/
structure CoachOut where
  hint : String := ""
  followups : List String := []
deriving Repr, DecidableEq

/-- A `stored_items` entry; on failure the raw candidate fields are kept. -/
structure MemItem where
  key : Option String := none
  value : Option String := none
  ctype : Option String := none
  ok : Bool := false
  result : Option Nat := none
deriving Repr, DecidableEq

/-- `{"stored": ..., "items": ...}`. -/
structure MemOut where
  stored : Bool := false
  items : List MemItem := []
deriving Repr, DecidableEq

/-- `_build_payload`. -/
structure Payload where
  active_person_id : Option String
  stm : List Utt
  recent_topics : Topics
  person_context : Ctx
  coach : CoachOut
  memory : MemOut
  signals : List Signal
deriving Repr, DecidableEq

/-- `handle_event`'s outcome: the mutated state, the returned payload, and
the trace of external calls issued during the step. -/
structure HandleResult where
  state : OrchState
  payload : Payload
  trace : List TraceEv
deriving Repr, DecidableEq

namespace ConversationOrchestrator

/-- `_safe_retrieve_context`: a failed fetch is replaced by the empty
default context and appends an error signal to the list it was handed. -/
def safe_retrieve_context (cfg : OrchConfig) (tools : Tools) (person_id : String)
    (sigs : List Signal) : Ctx × List Signal :=
  match tools.retrieve_person_context person_id cfg.fact_limit cfg.threshold with
  | .ok d => (.data d, sigs)
  | .error e =>
    (.defaultFor person_id, sigs ++ [.errorSig "retrieve_person_context" (truncMsg e)])

/-- `_switch_person` — note the source passes a fresh empty `signals` list
to `_safe_retrieve_context`, so any error signal raised there is discarded. -/
def switch_person (cfg : OrchConfig) (tools : Tools) (st : OrchState)
    (person_id : String) : OrchState × List TraceEv :=
  let ctx : Ctx := (safe_retrieve_context cfg tools person_id []).1
  ({ st with
      active_person_id := some person_id
      stm_utterances := []
      recent_topics := .noConversation
      person_context := ctx
      last_coach_ts := 0
      turn_count_since_coach := 0
      recognized_name := none
      turns_since_topic := 0
      turns_since_context := 0 },
   [.retrieveContext person_id])

/-- `_has_trigger_phrase`. -/
def trigger_phrases : List String :=
  ["what do you think", "any advice", "recommend", "i\x27m not sure",
   "help me", "how should i", "tell me about", "do you know", "?"]

def has_trigger_phrase (st : OrchState) : Bool :=
  match st.stm_utterances.getLast? with
  | none => false
  | some u => trigger_phrases.any (fun t => containsSub (pythonLower u.utterance) t)

/-- `_should_call_coach`: the wall-clock gate, then the turn-count gate
with the trigger-phrase override. -/
def should_call_coach (cfg : OrchConfig) (now : ℚ) (st : OrchState) (ev : Event) : Bool :=
  match ev with
  | .utterance_final _ _ =>
    if now - st.last_coach_ts < cfg.coach_min_interval_sec then false
    else if st.turn_count_since_coach < cfg.coach_turns_interval then has_trigger_phrase st
    else true
  | _ => false

/-- Step 2 of `handle_event`: append a final utterance to the dialogue and
bump all three turn counters — skipped entirely when the stripped text is
empty. -/
def append_stage (st : OrchState) (speaker? utterance? : Option String) : OrchState :=
  let speaker := strOr speaker? "Speaker"
  let text := pythonStrip (strOr utterance? "")
  if text = "" then st
  else
    { st with
        stm_utterances := st.stm_utterances ++ [⟨speaker, text⟩]
        last_speaker := speaker
        turn_count_since_coach := st.turn_count_since_coach + 1
        turns_since_topic := st.turns_since_topic + 1
        turns_since_context := st.turns_since_context + 1 }

/-- Step 4: without an active person the context is emptied for the turn;
otherwise it is refetched when the context counter reaches its threshold. -/
def context_stage (cfg : OrchConfig) (tools : Tools) (st : OrchState)
    (sigs : List Signal) : OrchState × List Signal × List TraceEv :=
  if !optTruthy st.active_person_id then
    ({ st with person_context := .empty }, sigs, [])
  else if st.turns_since_context ≥ cfg.context_refresh_turns then
    let pid := st.active_person_id.getD ""
    let cs := safe_retrieve_context cfg tools pid sigs
    ({ st with person_context := cs.1, turns_since_context := 0 }, cs.2,
     [.retrieveContext pid])
  else (st, sigs, [])

/-- Step 5: the recent-topics recap is refreshed when its counter reaches
the threshold; the counter resets whether the call succeeds or fails. -/
def topic_stage (cfg : OrchConfig) (tools : Tools) (st : OrchState)
    (sigs : List Signal) : OrchState × List Signal × List TraceEv :=
  if st.turns_since_topic ≥ cfg.topic_refresh_turns then
    match tools.summarize_recent_topics st.stm_utterances with
    | .ok d =>
      ({ st with recent_topics := .data d, turns_since_topic := 0 },
       sigs ++ [.recent_topics_updated], [.summarizeTopics])
    | .error e =>
      ({ st with turns_since_topic := 0 },
       sigs ++ [.errorSig "summarize_recent_topics" (truncMsg e)], [.summarizeTopics])
  else (st, sigs, [])

/-- The memory-candidate store loop of `_run_coach` (`candidates[:3]`).
Returns the `stored_items`, the error signals appended, and the calls
issued. -/
def store_candidates (tools : Tools) (person_id : String) (tags : List String) :
    List Cand → List MemItem × List Signal × List TraceEv
  | [] => ([], [], [])
  | c :: rest =>
    let ctype := strOr c.ctype "other"
    let key := pythonStrip (strOr c.key "")
    let value := pythonStrip (strOr c.value "")
    let conf := ratOr c.confidence 0.5
    let evidence := pythonStrip (strOr c.evidence "")
    let r := store_candidates tools person_id tags rest
    if key = "" ∨ value = "" then r
    else
      match tools.store_person_fact person_id key value conf evidence ctype tags with
      | .ok saved =>
        (⟨some key, some value, some ctype, true, some saved⟩ :: r.1, r.2.1,
         .storeFact key :: r.2.2)
      | .error e =>
        (⟨c.key, c.value, c.ctype, false, none⟩ :: r.1,
         .errorSig "store_person_fact" (truncMsg e) :: r.2.1, .storeFact key :: r.2.2)

/-- The optional one-shot name-recognition block at the top of
`_run_coach`: attempted only when a person is active, no name has been
recognized yet, and at least two utterances exist. -/
def recognize_stage (tools : Tools) (st : OrchState)
    (sigs : List Signal) : OrchState × List Signal × List TraceEv :=
  if optTruthy st.active_person_id ∧ st.recognized_name = none ∧
      st.stm_utterances.length ≥ 2 then
    match tools.recognize_person_name st.stm_utterances with
    | .ok nr =>
      if nr.confidence.getD 0 ≥ 0.7 ∧ optTruthy nr.name then
        ({ st with recognized_name := nr.name },
         sigs ++ [.recognized_name (nr.name.getD "")], [TraceEv.recognizeName])
      else (st, sigs, [TraceEv.recognizeName])
    | .error e =>
      (st, sigs ++ [.errorSig "recognize_person_name" (truncMsg e)],
       [TraceEv.recognizeName])
  else (st, sigs, [])

/-- `_run_coach`: optional one-shot name recognition, the coaching
decision, and — when the decision asks for it — storing up to three memory
candidates, each individually guarded. -/
def run_coach (tools : Tools) (st : OrchState)
    (sigs : List Signal) : CoachOut × MemOut × OrchState × List Signal × List TraceEv :=
  let rc := recognize_stage tools st sigs
  let st1 := rc.1
  let sigs1 := rc.2.1
  let tr1 := rc.2.2
  match tools.coach_and_decide st1.person_context st1.stm_utterances st1.recent_topics
      "default" st1.active_person_id with
  | .error e =>
    ({ hint := "", followups := [] }, { stored := false, items := [] }, st1,
     sigs1 ++ [.errorSig "coach_and_decide" (truncMsg e)], tr1 ++ [.coachDecide])
  | .ok d =>
    let coach_out : CoachOut := { hint := d.hint.getD "", followups := d.followups.getD [] }
    if d.should_store.getD false ∧ optTruthy st1.active_person_id then
      let pid := st1.active_person_id.getD ""
      let cands := (d.memory_candidates.getD []).take 3
      let sc := store_candidates tools pid (d.tags.getD []) cands
      (coach_out, { stored := sc.1.any (fun it => it.ok), items := sc.1 }, st1,
       sigs1 ++ sc.2.1, tr1 ++ [.coachDecide] ++ sc.2.2)
    else
      (coach_out, { stored := false, items := [] }, st1, sigs1, tr1 ++ [.coachDecide])

/-- Step 6: the coaching gate; after a coach run — successful or not — the
coach timer is set to the current wall clock and the turn counter resets. -/
def coach_stage (cfg : OrchConfig) (tools : Tools) (now : ℚ) (st : OrchState)
    (ev : Event) (sigs : List Signal) :
    CoachOut × MemOut × OrchState × List Signal × List TraceEv :=
  if should_call_coach cfg now st ev then
    let r := run_coach tools st sigs
    (r.1, r.2.1, { r.2.2.1 with last_coach_ts := now, turn_count_since_coach := 0 },
     r.2.2.2.1, r.2.2.2.2)
  else ({}, {}, st, sigs, [])

/-- `_build_payload`. -/
def build_payload (st : OrchState) (co : CoachOut) (mo : MemOut)
    (sigs : List Signal) : Payload :=
  { active_person_id := st.active_person_id
    stm := st.stm_utterances
    recent_topics := st.recent_topics
    person_context := st.person_context
    coach := co
    memory := mo
    signals := sigs }

/-- `handle_event(state, event)`.  `now` models the `time.time()` reads of
this turn (the gate check and the post-coach timer write are the same
instant in the model). -/
def handle_event (cfg : OrchConfig) (tools : Tools) (now : ℚ) (st : OrchState)
    (ev : Event) : HandleResult :=
  match ev with
  | .person_detected pid? =>
    if optTruthy pid? ∧ pid? ≠ st.active_person_id then
      let pid := pid?.getD ""
      let sw := switch_person cfg tools st pid
      ⟨sw.1, build_payload sw.1 {} {} [.person_switched pid], sw.2⟩
    else ⟨st, build_payload st {} {} [], []⟩
  | .conversation_end =>
    let (sigs1, tr1) :=
      match st.active_person_id with
      | some pid =>
        if pid ≠ "" then
          match tools.store_meeting_summary pid st.stm_utterances with
          | .ok _ => ([Signal.meeting_summary_saved], [TraceEv.storeMeeting])
          | .error e =>
            ([Signal.errorSig "store_meeting_summary" (truncMsg e)], [TraceEv.storeMeeting])
        else ([], [])
      | none => ([], [])
    let (st2, sigs2, tr2) :=
      match tools.summarize_recent_topics st.stm_utterances with
      | .ok d =>
        ({ st with recent_topics := .data d }, sigs1 ++ [.recent_topics_updated],
         tr1 ++ [.summarizeTopics])
      | .error e =>
        (st, sigs1 ++ [.errorSig "summarize_recent_topics" (truncMsg e)],
         tr1 ++ [.summarizeTopics])
    ⟨st2, build_payload st2 {} {} sigs2, tr2⟩
  | .utterance_final speaker? utterance? =>
    let st1 := append_stage st speaker? utterance?
    let c2 := context_stage cfg tools st1 []
    let c3 := topic_stage cfg tools c2.1 c2.2.1
    let c4 := coach_stage cfg tools now c3.1 ev c3.2.1
    ⟨c4.2.2.1, build_payload c4.2.2.1 c4.1 c4.2.1 c4.2.2.2.1,
     c2.2.2 ++ c3.2.2 ++ c4.2.2.2.2⟩

/-- A run of `handle_event` over timestamped events, collecting the times
of the events whose step invoked the external coaching-decision call. -/
def coachCallTimes (cfg : OrchConfig) (tools : Tools) :
    OrchState → List (ℚ × Event) → List ℚ
  | _, [] => []
  | st, (t, ev) :: rest =>
    let r := handle_event cfg tools t st ev
    if TraceEv.coachDecide ∈ r.trace then t :: coachCallTimes cfg tools r.state rest
    else coachCallTimes cfg tools r.state rest

/-- A run of `handle_event` over timestamped events, returning the final
state and the concatenated trace of external calls. -/
def runEvents (cfg : OrchConfig) (tools : Tools) :
    OrchState → List (ℚ × Event) → OrchState × List TraceEv
  | st, [] => (st, [])
  | st, (t, ev) :: rest =>
    let r := handle_event cfg tools t st ev
    let rest' := runEvents cfg tools r.state rest
    (rest'.1, r.trace ++ rest'.2)

end ConversationOrchestrator

/-! ## Helper lemmas -/

section FindBestMatchLemmas

/-- Invariant of the `find_best_match` fold: the accumulator's score never
decreases, every scanned score is bounded by the result, and the result is
either the untouched accumulator or the first entry reaching the final
score, every earlier entry scoring strictly less. -/
lemma fbm_fold_spec (emb : Emb) :
    ∀ (l : List (String × Emb)) (b : Option String × ℚ),
      (b.2 ≤ (l.foldl
        (fun best p =>
          let score := cosine_similarity emb p.2
          if score > best.2 then (some p.1, score) else best) b).2) ∧
      (∀ p ∈ l, cosine_similarity emb p.2 ≤ (l.foldl
        (fun best p =>
          let score := cosine_similarity emb p.2
          if score > best.2 then (some p.1, score) else best) b).2) ∧
      ((l.foldl
        (fun best p =>
          let score := cosine_similarity emb p.2
          if score > best.2 then (some p.1, score) else best) b) = b ∨
       ∃ l1 k e l2, l = l1 ++ (k, e) :: l2 ∧
         (l.foldl
           (fun best p =>
             let score := cosine_similarity emb p.2
             if score > best.2 then (some p.1, score) else best) b)
           = (some k, cosine_similarity emb e) ∧
         b.2 < cosine_similarity emb e ∧
         ∀ p ∈ l1, cosine_similarity emb p.2 < cosine_similarity emb e) := by
  intro l
  induction l with
  | nil => intro b; refine ⟨le_refl _, by simp, Or.inl rfl⟩
  | cons hd tl ih =>
    intro b
    by_cases hgt : cosine_similarity emb hd.2 > b.2
    · have hstep : (hd :: tl).foldl
          (fun best p =>
            let score := cosine_similarity emb p.2
            if score > best.2 then (some p.1, score) else best) b
          = tl.foldl
          (fun best p =>
            let score := cosine_similarity emb p.2
            if score > best.2 then (some p.1, score) else best)
          (some hd.1, cosine_similarity emb hd.2) := by
        simp [List.foldl_cons, hgt]
      obtain ⟨ih1, ih2, ih3⟩ := ih (some hd.1, cosine_similarity emb hd.2)
      rw [hstep]
      refine ⟨le_trans (le_of_lt hgt) ih1, ?_, ?_⟩
      · intro p hp
        rcases List.mem_cons.mp hp with h | h
        · subst h; exact ih1
        · exact ih2 p h
      · rcases ih3 with heq | ⟨l1, k, e, l2, hdec, hres, hlt, hall⟩
        · right
          exact ⟨[], hd.1, hd.2, tl, by simp, by rw [heq], hgt, by simp⟩
        · right
          refine ⟨hd :: l1, k, e, l2, by simp [hdec], hres, lt_trans hgt hlt, ?_⟩
          intro p hp
          rcases List.mem_cons.mp hp with h | h
          · subst h; exact hlt
          · exact hall p h
    · have hstep : (hd :: tl).foldl
          (fun best p =>
            let score := cosine_similarity emb p.2
            if score > best.2 then (some p.1, score) else best) b
          = tl.foldl
          (fun best p =>
            let score := cosine_similarity emb p.2
            if score > best.2 then (some p.1, score) else best) b := by
        simp [List.foldl_cons, hgt]
      obtain ⟨ih1, ih2, ih3⟩ := ih b
      rw [hstep]
      refine ⟨ih1, ?_, ?_⟩
      · intro p hp
        rcases List.mem_cons.mp hp with h | h
        · subst h; exact le_trans (not_lt.mp hgt) ih1
        · exact ih2 p h
      · rcases ih3 with heq | ⟨l1, k, e, l2, hdec, hres, hlt, hall⟩
        · exact Or.inl heq
        · right
          refine ⟨hd :: l1, k, e, l2, by simp [hdec], hres, hlt, ?_⟩
          intro p hp
          rcases List.mem_cons.mp hp with h | h
          · subst h; exact lt_of_le_of_lt (not_lt.mp hgt) hlt
          · exact hall p h

end FindBestMatchLemmas

/-! ## Claim C5 -/

/-- C5 (counterexample): the claim "the matcher ... always returns its best
guess" fails on a nonempty, unit-normalized known set.  With the single
entry `[-1, 0]` (unit: its self-similarity is 1) and query `[1, 0]`
(unit as well), the only similarity is exactly -1.0, which does not beat
the initial best score -1.0 (the comparison is strict), so the matcher
returns `(none, -1.0)` instead of that entry. -/
theorem C5_counterexample :
    cosine_similarity [(1 : ℚ), 0] [(1 : ℚ), 0] = 1 ∧
    cosine_similarity [(-1 : ℚ), 0] [(-1 : ℚ), 0] = 1 ∧
    cosine_similarity [(1 : ℚ), 0] [(-1 : ℚ), 0] = -1 ∧
    find_best_match [("a", [(-1 : ℚ), 0])] [(1 : ℚ), 0] = (none, -1) := by
  refine ⟨?_, ?_, ?_, ?_⟩ <;> norm_num [find_best_match, cosine_similarity]

/-- C5 (amended): `find_best_match` scans the known set in insertion
order keeping the strictly better entry, starting from `(none, -1.0)`:
it returns `(none, -1.0)` on an empty set, the returned score bounds every
entry's similarity, an exact tie is won by the first-inserted entry (every
entry before the winner scores strictly less), and it returns its best
guess even below `MATCH_THRESHOLD` — except that an entry whose similarity
is ≤ -1.0 (possible for unit vectors only at exactly -1.0, the antipode)
can never be selected: then the result is `(none, -1.0)` as for an empty
set. -/
theorem C5_matcher_argmax (known : List (String × Emb)) (emb : Emb) :
    (known = [] → find_best_match known emb = (none, -1)) ∧
    (-1 ≤ (find_best_match known emb).2) ∧
    (∀ p ∈ known, cosine_similarity emb p.2 ≤ (find_best_match known emb).2) ∧
    ((find_best_match known emb).1 = none → (find_best_match known emb).2 = -1 ∧
       ∀ p ∈ known, cosine_similarity emb p.2 ≤ -1) ∧
    (∀ k, (find_best_match known emb).1 = some k →
       ∃ l1 e l2, known = l1 ++ (k, e) :: l2 ∧
         cosine_similarity emb e = (find_best_match known emb).2 ∧
         -1 < (find_best_match known emb).2 ∧
         ∀ p ∈ l1, cosine_similarity emb p.2 < (find_best_match known emb).2) := by
  obtain ⟨h1, h2, h3⟩ := fbm_fold_spec emb known (none, -1)
  have hfbm : find_best_match known emb = known.foldl
      (fun best p =>
        let score := cosine_similarity emb p.2
        if score > best.2 then (some p.1, score) else best) (none, -1) := rfl
  refine ⟨?_, ?_, ?_, ?_, ?_⟩
  · intro h; subst h; rfl
  · rw [hfbm]; exact h1
  · rw [hfbm]; exact h2
  · intro hnone
    rcases h3 with heq | ⟨l1, k, e, l2, hdec, hres, hlt, hall⟩
    · constructor
      · rw [hfbm, heq]
      · intro p hp
        have := h2 p hp
        rw [hfbm] at *
        rw [heq] at this
        exact this
    · exfalso
      rw [hfbm, hres] at hnone
      simp at hnone
  · intro k hk
    rcases h3 with heq | ⟨l1, k', e, l2, hdec, hres, hlt, hall⟩
    · exfalso
      rw [hfbm, heq] at hk
      simp at hk
    · have hkk : k' = k := by
        rw [hfbm, hres] at hk
        simpa using hk
      subst hkk
      refine ⟨l1, e, l2, hdec, ?_, ?_, ?_⟩
      · rw [hfbm, hres]
      · rw [hfbm, hres]; exact hlt
      · intro p hp
        have := hall p hp
        rw [hfbm, hres]
        exact this

/-- C5 (witness): at the concrete known set `[("a", [1,0]), ("b", [0,1])]`
and query `[0,1]` the matcher's score bounds both entries' similarities. -/
theorem C5_matcher_argmax_witness :
    cosine_similarity [(0 : ℚ), 1] [(1 : ℚ), 0]
        ≤ (find_best_match [("a", [(1 : ℚ), 0]), ("b", [(0 : ℚ), 1])] [(0 : ℚ), 1]).2 ∧
    (find_best_match [("a", [(1 : ℚ), 0]), ("b", [(0 : ℚ), 1])] [(0 : ℚ), 1]).2 = 1 := by
  constructor
  · exact (C5_matcher_argmax [("a", [(1 : ℚ), 0]), ("b", [(0 : ℚ), 1])] [(0 : ℚ), 1]).2.2.1
      ("a", [(1 : ℚ), 0]) (by simp)
  · norm_num [find_best_match, cosine_similarity]

section FrameLemmas

/-- `finishFrame` never changes the track it is handed. -/
lemma finishFrame_track (db : FaceDB) (known : List (String × Emb))
    (names : List (String × String)) (t : Track) (track_id : String)
    (session_id : Option String) (bm : Option String × ℚ) (smooth : ℚ)
    (enrolled : Bool) (nid nname : Option String) :
    (finishFrame db known names t track_id session_id bm smooth enrolled nid nname).track = t := rfl

/-- `finishFrame` never changes the known set. -/
lemma finishFrame_known (db : FaceDB) (known : List (String × Emb))
    (names : List (String × String)) (t : Track) (track_id : String)
    (session_id : Option String) (bm : Option String × ℚ) (smooth : ℚ)
    (enrolled : Bool) (nid nname : Option String) :
    (finishFrame db known names t track_id session_id bm smooth enrolled nid nname).known = known := rfl

/-- `finishFrame` never changes the contact-name map. -/
lemma finishFrame_names (db : FaceDB) (known : List (String × Emb))
    (names : List (String × String)) (t : Track) (track_id : String)
    (session_id : Option String) (bm : Option String × ℚ) (smooth : ℚ)
    (enrolled : Bool) (nid nname : Option String) :
    (finishFrame db known names t track_id session_id bm smooth enrolled nid nname).names = names := rfl

lemma uniqueValue_of_all {l : List String} {x : String} (hne : l ≠ [])
    (h : ∀ y ∈ l, y = x) : uniqueValue l = some x := by
  cases l with
  | nil => exact absurd rfl hne
  | cons hd tl =>
    have hhd : hd = x := h hd (List.mem_cons_self _ _)
    have htl : tl.all (fun y => y == hd) = true := by
      rw [List.all_eq_true]
      intro y hy
      have hy' : y = x := h y (List.mem_cons_of_mem _ hy)
      rw [hy', hhd]
      simp
    rw [uniqueValue, if_pos htl, hhd]

lemma uniqueValue_eq_some {l : List String} {x : String}
    (h : uniqueValue l = some x) : ∀ y ∈ l, y = x := by
  cases l with
  | nil => simp [uniqueValue] at h
  | cons hd tl =>
    simp only [uniqueValue] at h
    by_cases hall : tl.all (fun y => y == hd) = true
    · rw [if_pos hall] at h
      have hx : hd = x := by simpa using h
      intro y hy
      rcases List.mem_cons.mp hy with rfl | hy'
      · exact hx
      · have := List.all_eq_true.mp hall y hy'
        simp at this
        rw [this, hx]
    · rw [if_neg hall] at h
      exact absurd h (by simp)

end FrameLemmas

/-! ## Claim C2 -/

/-- C2: for every track and observation, the per-frame candidate — the
matcher's winner, collapsed to `"UNKNOWN"` when unknown or scoring below
`MATCH_THRESHOLD` — is pushed into the capacity-3 `id_buffer` (this is the
buffer `processFrame` records, whatever else the frame does); a full
unanimous buffer sets `locked_id` to the common value, overwriting any
prior lock (including collapsing a known lock back to `"UNKNOWN"`); with
fewer than 3 entries, or a non-unanimous window, the lock is unchanged —
never set before the third unanimous vote.  Whenever the vote-stage lock
is not the `"UNKNOWN"` sentinel, it is exactly the lock `processFrame`
records (the enrollment stage, claim C3, can only override an `"UNKNOWN"`
lock). -/
theorem C2_vote_lock (db : FaceDB) (l2norm : Emb → Emb) (freshId : String)
    (known : List (String × Emb)) (names : List (String × String))
    (t : Track) (embedding : Emb) (session_id : Option String) (track_id : String) :
    (processFrame db l2norm freshId known names t embedding session_id track_id).track.id_buffer
      = dequeAppend STABLE_FRAMES t.id_buffer (candidateOf (find_best_match known embedding)) ∧
    (∀ x, (dequeAppend STABLE_FRAMES t.id_buffer
        (candidateOf (find_best_match known embedding))).length = STABLE_FRAMES →
      (∀ y ∈ dequeAppend STABLE_FRAMES t.id_buffer
        (candidateOf (find_best_match known embedding)), y = x) →
      lockUpdate t.locked_id (dequeAppend STABLE_FRAMES t.id_buffer
        (candidateOf (find_best_match known embedding))) = some x) ∧
    ((dequeAppend STABLE_FRAMES t.id_buffer
        (candidateOf (find_best_match known embedding))).length ≠ STABLE_FRAMES →
      lockUpdate t.locked_id (dequeAppend STABLE_FRAMES t.id_buffer
        (candidateOf (find_best_match known embedding))) = t.locked_id) ∧
    ((¬ ∃ x, ∀ y ∈ dequeAppend STABLE_FRAMES t.id_buffer
        (candidateOf (find_best_match known embedding)), y = x) →
      lockUpdate t.locked_id (dequeAppend STABLE_FRAMES t.id_buffer
        (candidateOf (find_best_match known embedding))) = t.locked_id) ∧
    (lockUpdate t.locked_id (dequeAppend STABLE_FRAMES t.id_buffer
        (candidateOf (find_best_match known embedding))) ≠ some "UNKNOWN" →
      (processFrame db l2norm freshId known names t embedding session_id track_id).track.locked_id
        = lockUpdate t.locked_id (dequeAppend STABLE_FRAMES t.id_buffer
            (candidateOf (find_best_match known embedding)))) := by
  refine ⟨?_, ?_, ?_, ?_, ?_⟩
  · unfold processFrame
    dsimp only
    repeat' split
    all_goals rfl
  · intro x hlen hall
    unfold lockUpdate
    rw [if_pos hlen]
    rw [uniqueValue_of_all (by intro hnil; rw [hnil] at hlen; simp [STABLE_FRAMES] at hlen) hall]
  · intro hlen
    unfold lockUpdate
    rw [if_neg hlen]
  · intro hnot
    unfold lockUpdate
    split
    · cases huv : uniqueValue (dequeAppend STABLE_FRAMES t.id_buffer
        (candidateOf (find_best_match known embedding))) with
      | none => simp [huv]
      | some x => exact absurd ⟨x, uniqueValue_eq_some huv⟩ hnot
    · rfl
  · intro hne
    unfold processFrame
    dsimp only
    rw [if_neg (by
      intro hcon
      exact hne hcon.1)]
    rfl

/-- C2 (witness): a track that has voted `"alice"` twice receives a third
matching vote for `"alice"` (similarity 1 ≥ 0.45), and the lock becomes
`"alice"`. -/
theorem C2_vote_lock_witness :
    lockUpdate none ["alice", "alice", "alice"] = some "alice" := by
  have hcand : candidateOf (find_best_match [("alice", [(1 : ℚ), 0])] [(1 : ℚ), 0]) = "alice" := by
    norm_num [find_best_match, cosine_similarity, candidateOf, MATCH_THRESHOLD]
  have hbuf : dequeAppend STABLE_FRAMES ["alice", "alice"]
      (candidateOf (find_best_match [("alice", [(1 : ℚ), 0])] [(1 : ℚ), 0]))
      = ["alice", "alice", "alice"] := by
    rw [hcand]; decide
  have h := (C2_vote_lock ⟨fun _ _ _ => .ok (), fun _ => .ok (), fun _ _ => .ok (),
      fun _ => .ok ()⟩ id "f" [("alice", [(1 : ℚ), 0])] [("alice", "Alice")]
      { score_buffer := [], id_buffer := ["alice", "alice"], enroll_buffer := [],
        locked_id := none } [(1 : ℚ), 0] none "t1").2.1 "alice"
  rw [hbuf] at h
  exact h (by decide) (by decide)

section EnrollmentLemmas

lemma dictInsert_of_not_mem {l : List (String × α)} {k : String} (v : α)
    (h : l.any (fun p => p.1 == k) = false) : dictInsert l k v = l ++ [(k, v)] := by
  unfold dictInsert
  rw [if_neg (by simp [h])]

/-- When the vote stage leaves the lock `"UNKNOWN"` and the buffer is full,
the mint branch with a succeeding insert produces the enrolled frame. -/
lemma processFrame_mint_ok (db : FaceDB) (l2norm : Emb → Emb) (freshId : String)
    (known : List (String × Emb)) (names : List (String × String)) (t : Track)
    (embedding : Emb) (session_id : Option String) (track_id : String)
    (hL : lockUpdate t.locked_id (dequeAppend STABLE_FRAMES t.id_buffer
        (candidateOf (find_best_match known embedding))) = some "UNKNOWN")
    (hlen : (t.enroll_buffer ++ [embedding]).length ≥ ENROLL_FRAMES)
    (hbelow : (find_best_match known (l2norm (meanVec (t.enroll_buffer ++ [embedding])))).1 = none ∨
      (find_best_match known (l2norm (meanVec (t.enroll_buffer ++ [embedding])))).2 < MATCH_THRESHOLD)
    (hins : db.insert_contact_with_embedding freshId (default_contact_name freshId)
        (l2norm (meanVec (t.enroll_buffer ++ [embedding]))) = .ok ()) :
    processFrame db l2norm freshId known names t embedding session_id track_id =
      finishFrame db
        (dictInsert known freshId (l2norm (meanVec (t.enroll_buffer ++ [embedding]))))
        (dictInsert names freshId (default_contact_name freshId))
        ⟨dequeAppend SCORE_WINDOW t.score_buffer (find_best_match known embedding).2,
         dequeAppend STABLE_FRAMES t.id_buffer (candidateOf (find_best_match known embedding)),
         [], some freshId⟩
        track_id session_id (find_best_match known embedding)
        (listMean (dequeAppend SCORE_WINDOW t.score_buffer (find_best_match known embedding).2))
        true (some freshId) (some (default_contact_name freshId)) := by
  unfold processFrame
  dsimp only
  rw [if_pos hL, if_pos ⟨hL, hlen⟩, if_pos hbelow, hins]

/-- Mint branch with a raising insert: the exception skips the buffer
clear, the known-set insertion and the lock assignment, and surfaces as an
error reply. -/
lemma processFrame_mint_fail (db : FaceDB) (l2norm : Emb → Emb) (freshId : String)
    (known : List (String × Emb)) (names : List (String × String)) (t : Track)
    (embedding : Emb) (session_id : Option String) (track_id : String) (e : String)
    (hL : lockUpdate t.locked_id (dequeAppend STABLE_FRAMES t.id_buffer
        (candidateOf (find_best_match known embedding))) = some "UNKNOWN")
    (hlen : (t.enroll_buffer ++ [embedding]).length ≥ ENROLL_FRAMES)
    (hbelow : (find_best_match known (l2norm (meanVec (t.enroll_buffer ++ [embedding])))).1 = none ∨
      (find_best_match known (l2norm (meanVec (t.enroll_buffer ++ [embedding])))).2 < MATCH_THRESHOLD)
    (hins : db.insert_contact_with_embedding freshId (default_contact_name freshId)
        (l2norm (meanVec (t.enroll_buffer ++ [embedding]))) = .error e) :
    processFrame db l2norm freshId known names t embedding session_id track_id =
      ⟨known, names,
       ⟨dequeAppend SCORE_WINDOW t.score_buffer (find_best_match known embedding).2,
        dequeAppend STABLE_FRAMES t.id_buffer (candidateOf (find_best_match known embedding)),
        t.enroll_buffer ++ [embedding], some "UNKNOWN"⟩,
       .error e⟩ := by
  unfold processFrame
  dsimp only
  rw [if_pos hL, if_pos ⟨hL, hlen⟩, if_pos hbelow, hins, hL]

/-- No-mint branch: the re-query matched an existing identity at or above
threshold, so nothing is minted, the lock is untouched, and the buffer is
cleared. -/
lemma processFrame_nomint (db : FaceDB) (l2norm : Emb → Emb) (freshId : String)
    (known : List (String × Emb)) (names : List (String × String)) (t : Track)
    (embedding : Emb) (session_id : Option String) (track_id : String)
    (hL : lockUpdate t.locked_id (dequeAppend STABLE_FRAMES t.id_buffer
        (candidateOf (find_best_match known embedding))) = some "UNKNOWN")
    (hlen : (t.enroll_buffer ++ [embedding]).length ≥ ENROLL_FRAMES)
    (habove : ¬((find_best_match known (l2norm (meanVec (t.enroll_buffer ++ [embedding])))).1 = none ∨
      (find_best_match known (l2norm (meanVec (t.enroll_buffer ++ [embedding])))).2 < MATCH_THRESHOLD)) :
    processFrame db l2norm freshId known names t embedding session_id track_id =
      finishFrame db known names
        ⟨dequeAppend SCORE_WINDOW t.score_buffer (find_best_match known embedding).2,
         dequeAppend STABLE_FRAMES t.id_buffer (candidateOf (find_best_match known embedding)),
         [], some "UNKNOWN"⟩
        track_id session_id (find_best_match known embedding)
        (listMean (dequeAppend SCORE_WINDOW t.score_buffer (find_best_match known embedding).2))
        false none none := by
  unfold processFrame
  dsimp only
  rw [if_pos hL, if_pos ⟨hL, hlen⟩, if_neg habove, hL]

/-- A frame that ends with a truthy, non-`"UNKNOWN"` lock replies `ok`
when the touch / meeting updates go through, carrying the enrollment
fields it was handed. -/
lemma frameReply_ok_fields (db : FaceDB) (names : List (String × String)) (t : Track)
    (track_id : String) (session_id : Option String) (bm : Option String × ℚ)
    (smooth : ℚ) (enrolled : Bool) (nid nname : Option String) (rid : String)
    (hres : t.locked_id = some rid) (hrid1 : rid ≠ "UNKNOWN") (hrid2 : rid ≠ "")
    (htouch : db.touch_contact rid = .ok ())
    (hupd : optTruthy session_id = true →
      db.update_meeting_person (session_id.getD "") rid = .ok ()) :
    ∃ r, frameReply db names t track_id session_id bm smooth enrolled nid nname = .ok r ∧
      r.enrolled = enrolled ∧ r.new_person_id = nid ∧ r.new_person_name = nname ∧
      r.identity = some rid := by
  unfold frameReply
  dsimp only
  rw [hres]
  have hresv : (if (some rid : Option String) = some "UNKNOWN" then (none : Option String)
      else some rid) = some rid := if_neg (by simp [hrid1])
  rw [hresv]
  have htru : optTruthy (some rid) = true := by simp [optTruthy, hrid2]
  rw [htru, if_pos rfl]
  simp only [Option.getD_some]
  rw [htouch]
  cases hs : optTruthy session_id with
  | true =>
    rw [if_pos rfl, hupd hs]
    exact ⟨_, rfl, rfl, rfl, rfl, rfl⟩
  | false =>
    rw [if_neg (by simp)]
    exact ⟨_, rfl, rfl, rfl, rfl, rfl⟩

/-- A frame whose lock is still `"UNKNOWN"` replies `ok` when the
meeting-session insert goes through. -/
lemma frameReply_unknown_fields (db : FaceDB) (names : List (String × String)) (t : Track)
    (track_id : String) (session_id : Option String) (bm : Option String × ℚ)
    (smooth : ℚ) (enrolled : Bool) (nid nname : Option String)
    (hres : t.locked_id = some "UNKNOWN")
    (hins2 : optTruthy session_id = true →
      db.insert_meeting_session (session_id.getD "") = .ok ()) :
    ∃ r, frameReply db names t track_id session_id bm smooth enrolled nid nname = .ok r ∧
      r.enrolled = enrolled ∧ r.new_person_id = nid ∧ r.new_person_name = nname ∧
      r.identity = some "UNKNOWN" := by
  unfold frameReply
  dsimp only
  rw [hres]
  have hresv : (if (some "UNKNOWN" : Option String) = some "UNKNOWN" then (none : Option String)
      else some "UNKNOWN") = none := if_pos rfl
  rw [hresv]
  have hfal : optTruthy (none : Option String) = false := rfl
  rw [hfal, if_neg (by simp)]
  cases hs : optTruthy session_id with
  | true =>
    rw [if_pos rfl, hins2 hs]
    exact ⟨_, rfl, rfl, rfl, rfl, rfl⟩
  | false =>
    rw [if_neg (by simp)]
    exact ⟨_, rfl, rfl, rfl, rfl, rfl⟩

end EnrollmentLemmas

/-! ## Claim C3 -/

/-- C3: when a track's vote-stage lock is `"UNKNOWN"` and its enroll
buffer (after this observation's append) reaches `ENROLL_FRAMES = 12`, the
mean of the buffered embeddings is re-normalized (`l2norm ∘ meanVec`) and
re-matched against the known set.  If the re-match is absent or scores
below `MATCH_THRESHOLD` (and the persistence insert succeeds), exactly one
new identity is minted: the known set becomes the old set plus exactly the
one new entry, the name map gains the default contact name, `locked_id`
becomes the new id, and the reply reports `enrolled = true` with the new
person id and name.  If the re-match is at or above threshold, nothing is
minted and the lock is left untouched (`"UNKNOWN"`) for this cycle. -/
theorem C3_enrollment (db : FaceDB) (l2norm : Emb → Emb) (freshId : String)
    (known : List (String × Emb)) (names : List (String × String)) (t : Track)
    (embedding : Emb) (session_id : Option String) (track_id : String)
    (out : FrameOut)
    (hout : out = processFrame db l2norm freshId known names t embedding session_id track_id)
    (hL : lockUpdate t.locked_id (dequeAppend STABLE_FRAMES t.id_buffer
        (candidateOf (find_best_match known embedding))) = some "UNKNOWN")
    (hlen : (t.enroll_buffer ++ [embedding]).length ≥ ENROLL_FRAMES)
    (hfid1 : freshId ≠ "UNKNOWN") (hfid2 : freshId ≠ "") :
    (((find_best_match known (l2norm (meanVec (t.enroll_buffer ++ [embedding])))).1 = none ∨
        (find_best_match known (l2norm (meanVec (t.enroll_buffer ++ [embedding])))).2 < MATCH_THRESHOLD) →
      known.any (fun p => p.1 == freshId) = false →
      names.any (fun p => p.1 == freshId) = false →
      db.insert_contact_with_embedding freshId (default_contact_name freshId)
          (l2norm (meanVec (t.enroll_buffer ++ [embedding]))) = .ok () →
      db.touch_contact freshId = .ok () →
      (optTruthy session_id = true →
        db.update_meeting_person (session_id.getD "") freshId = .ok ()) →
      out.known = known ++ [(freshId, l2norm (meanVec (t.enroll_buffer ++ [embedding])))] ∧
      out.known.length = known.length + 1 ∧
      out.names = names ++ [(freshId, default_contact_name freshId)] ∧
      out.track.locked_id = some freshId ∧
      out.track.enroll_buffer = [] ∧
      ∃ r, out.response = .ok r ∧ r.enrolled = true ∧ r.new_person_id = some freshId ∧
        r.new_person_name = some (default_contact_name freshId) ∧ r.identity = some freshId) ∧
    (¬((find_best_match known (l2norm (meanVec (t.enroll_buffer ++ [embedding])))).1 = none ∨
        (find_best_match known (l2norm (meanVec (t.enroll_buffer ++ [embedding])))).2 < MATCH_THRESHOLD) →
      out.known = known ∧
      out.names = names ∧
      out.track.locked_id = some "UNKNOWN" ∧
      out.track.enroll_buffer = [] ∧
      ((optTruthy session_id = true →
          db.insert_meeting_session (session_id.getD "") = .ok ()) →
        ∃ r, out.response = .ok r ∧ r.enrolled = false ∧ r.new_person_id = none)) := by
  subst hout
  constructor
  · intro hbelow hkfresh hnfresh hins htouch hupd
    rw [processFrame_mint_ok db l2norm freshId known names t embedding session_id track_id
      hL hlen hbelow hins]
    refine ⟨?_, ?_, ?_, rfl, rfl, ?_⟩
    · rw [finishFrame_known, dictInsert_of_not_mem _ hkfresh]
    · rw [finishFrame_known, dictInsert_of_not_mem _ hkfresh]
      simp
    · rw [finishFrame_names, dictInsert_of_not_mem _ hnfresh]
    · exact frameReply_ok_fields db
        (dictInsert names freshId (default_contact_name freshId)) _ track_id session_id
        (find_best_match known embedding) _ true (some freshId)
        (some (default_contact_name freshId)) freshId rfl hfid1 hfid2 htouch hupd
  · intro habove
    rw [processFrame_nomint db l2norm freshId known names t embedding session_id track_id
      hL hlen habove]
    refine ⟨rfl, rfl, rfl, rfl, ?_⟩
    intro hins2
    obtain ⟨r, hr, he, hn, _, _⟩ := frameReply_unknown_fields db names
      ⟨dequeAppend SCORE_WINDOW t.score_buffer (find_best_match known embedding).2,
       dequeAppend STABLE_FRAMES t.id_buffer (candidateOf (find_best_match known embedding)),
       [], some "UNKNOWN"⟩ track_id session_id (find_best_match known embedding)
      (listMean (dequeAppend SCORE_WINDOW t.score_buffer (find_best_match known embedding).2))
      false none none rfl hins2
    exact ⟨r, hr, he, hn⟩

/-- A persistence collaborator whose calls all succeed. -/
def dbAllOk : FaceDB :=
  ⟨fun _ _ _ => .ok (), fun _ => .ok (), fun _ _ => .ok (), fun _ => .ok ()⟩

/-- A persistence collaborator whose contact insert raises. -/
def dbInsertFails : FaceDB :=
  ⟨fun _ _ _ => .error "db down", fun _ => .ok (), fun _ _ => .ok (), fun _ => .ok ()⟩

/-- A track that has been `"UNKNOWN"` for a while: two `"UNKNOWN"` votes in
the id buffer and eleven embeddings accumulated for enrollment. -/
def unknownTrack11 : Track :=
  ⟨[], ["UNKNOWN", "UNKNOWN"], List.replicate 11 [1], none⟩

/-- C3 (witness): a twelfth unknown observation against an empty known set
mints exactly one identity, locks the track to it, and the known set has
exactly one entry. -/
theorem C3_enrollment_witness :
    (processFrame dbAllOk id "p1" [] [] unknownTrack11 [1] none "t1").track.locked_id
        = some "p1" ∧
    (processFrame dbAllOk id "p1" [] [] unknownTrack11 [1] none "t1").known.length = 1 ∧
    (processFrame dbAllOk id "p1" [] [] unknownTrack11 [1] none "t1").track.enroll_buffer = [] := by
  have h := (C3_enrollment dbAllOk id "p1" [] [] unknownTrack11 [1] none "t1" _ rfl
      (by rfl) (by decide) (by decide) (by decide)).1
      (Or.inl rfl) rfl rfl rfl rfl
      (by intro hcon; exact absurd hcon (by decide))
  exact ⟨h.2.2.2.1, h.2.1, h.2.2.2.2.1⟩

/-! ## Claim C4 -/

/-- C4 (counterexample): the claim that the enroll buffer is cleared
"regardless of outcome — including when the persistence insert fails" is
false.  On a twelfth unknown observation with a raising
`insert_contact_with_embedding`, the exception aborts the frame before
`enroll_buffer.clear()`: the buffer still holds all 12 embeddings, and the
frame answers with the error reply. -/
theorem C4_counterexample :
    (processFrame dbInsertFails id "p1" [] [] unknownTrack11 [1] none "t1").track.enroll_buffer
        = List.replicate 11 [1] ++ [[1]] ∧
    (processFrame dbInsertFails id "p1" [] [] unknownTrack11 [1] none "t1").track.enroll_buffer ≠ [] ∧
    (processFrame dbInsertFails id "p1" [] [] unknownTrack11 [1] none "t1").response
        = .error "db down" := by
  have h := processFrame_mint_fail dbInsertFails id "p1" [] [] unknownTrack11 [1] none "t1"
      "db down" (by rfl) (by decide) (Or.inl rfl) rfl
  rw [h]
  refine ⟨rfl, by decide, rfl⟩

/-- C4 (amended): for every enrollment attempt (vote-stage lock
`"UNKNOWN"`, buffer full), the enroll buffer is cleared afterward in both
outcomes that complete — minting with a succeeding insert, or a re-match
at/above threshold.  When the persistence insert raises, however, the
clear is skipped: the buffer keeps all accumulated embeddings (so the
attempt is re-evaluated on the next frame), while the in-memory known set,
name map and lock are left unchanged and the failure is reported to the
caller as an error reply instead of being raised fatally. -/
theorem C4_enroll_clear (db : FaceDB) (l2norm : Emb → Emb) (freshId : String)
    (known : List (String × Emb)) (names : List (String × String)) (t : Track)
    (embedding : Emb) (session_id : Option String) (track_id : String)
    (hL : lockUpdate t.locked_id (dequeAppend STABLE_FRAMES t.id_buffer
        (candidateOf (find_best_match known embedding))) = some "UNKNOWN")
    (hlen : (t.enroll_buffer ++ [embedding]).length ≥ ENROLL_FRAMES) :
    (((find_best_match known (l2norm (meanVec (t.enroll_buffer ++ [embedding])))).1 = none ∨
        (find_best_match known (l2norm (meanVec (t.enroll_buffer ++ [embedding])))).2 < MATCH_THRESHOLD) →
      db.insert_contact_with_embedding freshId (default_contact_name freshId)
          (l2norm (meanVec (t.enroll_buffer ++ [embedding]))) = .ok () →
      (processFrame db l2norm freshId known names t embedding session_id track_id).track.enroll_buffer = []) ∧
    (¬((find_best_match known (l2norm (meanVec (t.enroll_buffer ++ [embedding])))).1 = none ∨
        (find_best_match known (l2norm (meanVec (t.enroll_buffer ++ [embedding])))).2 < MATCH_THRESHOLD) →
      (processFrame db l2norm freshId known names t embedding session_id track_id).track.enroll_buffer = []) ∧
    (∀ e, ((find_best_match known (l2norm (meanVec (t.enroll_buffer ++ [embedding])))).1 = none ∨
        (find_best_match known (l2norm (meanVec (t.enroll_buffer ++ [embedding])))).2 < MATCH_THRESHOLD) →
      db.insert_contact_with_embedding freshId (default_contact_name freshId)
          (l2norm (meanVec (t.enroll_buffer ++ [embedding]))) = .error e →
      (processFrame db l2norm freshId known names t embedding session_id track_id).track.enroll_buffer
          = t.enroll_buffer ++ [embedding] ∧
      (processFrame db l2norm freshId known names t embedding session_id track_id).known = known ∧
      (processFrame db l2norm freshId known names t embedding session_id track_id).names = names ∧
      (processFrame db l2norm freshId known names t embedding session_id track_id).track.locked_id
          = some "UNKNOWN" ∧
      (processFrame db l2norm freshId known names t embedding session_id track_id).response
          = .error e) := by
  refine ⟨?_, ?_, ?_⟩
  · intro hbelow hins
    rw [processFrame_mint_ok db l2norm freshId known names t embedding session_id track_id
      hL hlen hbelow hins]
    rfl
  · intro habove
    rw [processFrame_nomint db l2norm freshId known names t embedding session_id track_id
      hL hlen habove]
    rfl
  · intro e hbelow hins
    rw [processFrame_mint_fail db l2norm freshId known names t embedding session_id track_id
      e hL hlen hbelow hins]
    exact ⟨rfl, rfl, rfl, rfl, rfl⟩

/-- C4 (witness): a completing enrollment attempt (succeeding insert)
leaves the buffer empty. -/
theorem C4_enroll_clear_witness :
    (processFrame dbAllOk id "p2" [] [] unknownTrack11 [1] none "t2").track.enroll_buffer = [] := by
  exact (C4_enroll_clear dbAllOk id "p2" [] [] unknownTrack11 [1] none "t2"
    (by rfl) (by decide)).1 (Or.inl rfl) rfl

section StmLemmas

lemma find?_map_update {l : List (String × α)} {k : String} (v : α)
    (h : l.any (fun p => p.1 == k) = true) :
    (l.map (fun p => if p.1 == k then (k, v) else p)).find? (fun p => p.1 == k)
      = some (k, v) := by
  induction l with
  | nil => simp at h
  | cons hd tl ih =>
    by_cases hk : (hd.1 == k) = true
    · rw [List.map_cons, if_pos hk]
      rw [List.find?_cons_of_pos _ (by simp)]
    · rw [List.map_cons, if_neg hk]
      rw [List.find?_cons_of_neg _ (by simpa using hk)]
      apply ih
      rcases List.any_eq_true.mp h with ⟨p, hp, hpk⟩
      rcases List.mem_cons.mp hp with rfl | hp'
      · exact absurd hpk hk
      · exact List.any_eq_true.mpr ⟨p, hp', hpk⟩

lemma dictGet?_insert_self (l : List (String × α)) (k : String) (v : α) :
    dictGet? (dictInsert l k v) k = some v := by
  unfold dictInsert
  by_cases h : l.any (fun p => p.1 == k) = true
  · rw [if_pos h]
    unfold dictGet?
    rw [find?_map_update v h]
    rfl
  · rw [if_neg h]
    unfold dictGet?
    have h' : l.find? (fun p => p.1 == k) = none := by
      rw [List.find?_eq_none]
      intro p hp
      intro hc
      exact h (List.any_eq_true.mpr ⟨p, hp, hc⟩)
    rw [List.find?_append, h']
    simp

/-- Both branches of `_get_state` leave the session with a freshly
refreshed expiry. -/
lemma get_state_expires (m : ShortTermMemory) (sid : String) (now : ℚ) :
    (m.get_state sid now).1.expires_at = now + (m.get_state sid now).1.ttl_seconds := by
  unfold ShortTermMemory.get_state
  cases h : dictGet? m.store sid with
  | none => simp [ShortTermMemory.freshSession]
  | some st =>
    by_cases he : st.expires_at ≤ now
    · simp [he, ShortTermMemory.freshSession]
    · simp [he]

end StmLemmas

/-! ## Claim C6 -/

/-- C6: `append_utterance` with a speaker outside {user, other} is a
silent no-op — the whole memory is unchanged (hence `summary(session)`
reads the same utterances, at any later time), and no error is raised
(the operation is total).  With a valid speaker it pushes
`{speaker, text, ts}` (defaulting `ts` to the wall clock) into the
session's FIFO, evicting the oldest entry once the capacity
(`max_utterances`, default 80) is exceeded — `dequeAppend` — and the
session's TTL is refreshed: the stored expiry is the wall clock plus the
session's TTL. -/
theorem C6_append_speaker (m : ShortTermMemory) (sid speaker text : String)
    (ts : Option ℚ) (now now2 : ℚ) :
    (¬(speaker = "user" ∨ speaker = "other") →
      ShortTermMemory.append_utterance m sid speaker text ts now = m ∧
      (ShortTermMemory.summary
        (ShortTermMemory.append_utterance m sid speaker text ts now) sid now2).1.utterances
        = (ShortTermMemory.summary m sid now2).1.utterances) ∧
    ((speaker = "user" ∨ speaker = "other") →
      ∃ st', dictGet? (ShortTermMemory.append_utterance m sid speaker text ts now).store sid
          = some st' ∧
        st'.utterances = dequeAppend m.max_utterances
          (m.get_state sid now).1.utterances ⟨speaker, text, ts.getD now⟩ ∧
        st'.expires_at = now + st'.ttl_seconds) := by
  constructor
  · intro hbad
    have hne : speaker ≠ "user" ∧ speaker ≠ "other" := by
      constructor
      · intro hc; exact hbad (Or.inl hc)
      · intro hc; exact hbad (Or.inr hc)
    have heq : ShortTermMemory.append_utterance m sid speaker text ts now = m := by
      unfold ShortTermMemory.append_utterance
      rw [if_pos hne]
    exact ⟨heq, by rw [heq]⟩
  · intro hok
    have hne : ¬(speaker ≠ "user" ∧ speaker ≠ "other") := by
      rcases hok with h | h
      · intro hc; exact hc.1 h
      · intro hc; exact hc.2 h
    unfold ShortTermMemory.append_utterance
    rw [if_neg hne]
    have hexp := get_state_expires m sid now
    rcases hgs : m.get_state sid now with ⟨st, m'⟩
    rw [hgs] at hexp
    exact ⟨_, dictGet?_insert_self _ _ _, rfl, hexp⟩

/-- C6 (witness): appending with speaker `"bot"` leaves the default memory
untouched, and a `"user"` append stores the utterance with a refreshed
expiry. -/
theorem C6_append_speaker_witness :
    ShortTermMemory.append_utterance ⟨300, 80, []⟩ "s" "bot" "x" none 0 = ⟨300, 80, []⟩ ∧
    ∃ st', dictGet? (ShortTermMemory.append_utterance ⟨300, 80, []⟩ "s" "user" "x" none 0).store "s"
        = some st' ∧
      st'.utterances = dequeAppend 80
        ((ShortTermMemory.get_state ⟨300, 80, []⟩ "s" 0).1.utterances) ⟨"user", "x", 0⟩ ∧
      st'.expires_at = 0 + st'.ttl_seconds := by
  constructor
  · exact ((C6_append_speaker ⟨300, 80, []⟩ "s" "bot" "x" none 0 0).1 (by decide)).1
  · exact (C6_append_speaker ⟨300, 80, []⟩ "s" "user" "x" none 0 0).2 (Or.inl rfl)

section OrchStageLemmas

open ConversationOrchestrator

lemma append_stage_of_empty (st : OrchState) (spk txt : Option String)
    (h : pythonStrip (strOr txt "") = "") : append_stage st spk txt = st := by
  unfold append_stage
  dsimp only
  rw [if_pos h]

lemma append_stage_preserves (st : OrchState) (spk txt : Option String) :
    (append_stage st spk txt).last_coach_ts = st.last_coach_ts ∧
    (append_stage st spk txt).recognized_name = st.recognized_name ∧
    (append_stage st spk txt).active_person_id = st.active_person_id ∧
    (append_stage st spk txt).person_context = st.person_context ∧
    (append_stage st spk txt).recent_topics = st.recent_topics := by
  unfold append_stage
  dsimp only
  split <;> exact ⟨rfl, rfl, rfl, rfl, rfl⟩

lemma context_stage_preserves (cfg : OrchConfig) (tools : Tools) (st : OrchState)
    (sigs : List Signal) :
    (context_stage cfg tools st sigs).1.stm_utterances = st.stm_utterances ∧
    (context_stage cfg tools st sigs).1.last_speaker = st.last_speaker ∧
    (context_stage cfg tools st sigs).1.turn_count_since_coach = st.turn_count_since_coach ∧
    (context_stage cfg tools st sigs).1.turns_since_topic = st.turns_since_topic ∧
    (context_stage cfg tools st sigs).1.last_coach_ts = st.last_coach_ts ∧
    (context_stage cfg tools st sigs).1.recognized_name = st.recognized_name ∧
    (context_stage cfg tools st sigs).1.active_person_id = st.active_person_id ∧
    (context_stage cfg tools st sigs).1.recent_topics = st.recent_topics ∧
    ((context_stage cfg tools st sigs).1.turns_since_context = st.turns_since_context ∨
      (context_stage cfg tools st sigs).1.turns_since_context = 0) ∧
    (∀ ev ∈ (context_stage cfg tools st sigs).2.2, ∃ pid, ev = TraceEv.retrieveContext pid) := by
  unfold context_stage
  split
  · exact ⟨rfl, rfl, rfl, rfl, rfl, rfl, rfl, rfl, Or.inl rfl, by simp⟩
  · split
    · refine ⟨rfl, rfl, rfl, rfl, rfl, rfl, rfl, rfl, Or.inr rfl, ?_⟩
      intro ev hev
      simp at hev
      exact ⟨_, hev⟩
    · exact ⟨rfl, rfl, rfl, rfl, rfl, rfl, rfl, rfl, Or.inl rfl, by simp⟩

lemma topic_stage_preserves (cfg : OrchConfig) (tools : Tools) (st : OrchState)
    (sigs : List Signal) :
    (topic_stage cfg tools st sigs).1.stm_utterances = st.stm_utterances ∧
    (topic_stage cfg tools st sigs).1.last_speaker = st.last_speaker ∧
    (topic_stage cfg tools st sigs).1.turn_count_since_coach = st.turn_count_since_coach ∧
    (topic_stage cfg tools st sigs).1.turns_since_context = st.turns_since_context ∧
    (topic_stage cfg tools st sigs).1.last_coach_ts = st.last_coach_ts ∧
    (topic_stage cfg tools st sigs).1.recognized_name = st.recognized_name ∧
    (topic_stage cfg tools st sigs).1.active_person_id = st.active_person_id ∧
    (topic_stage cfg tools st sigs).1.person_context = st.person_context ∧
    ((topic_stage cfg tools st sigs).1.turns_since_topic = st.turns_since_topic ∨
      (topic_stage cfg tools st sigs).1.turns_since_topic = 0) ∧
    (∀ ev ∈ (topic_stage cfg tools st sigs).2.2, ev = TraceEv.summarizeTopics) := by
  unfold topic_stage
  split
  · split
    · exact ⟨rfl, rfl, rfl, rfl, rfl, rfl, rfl, rfl, Or.inr rfl, by simp⟩
    · exact ⟨rfl, rfl, rfl, rfl, rfl, rfl, rfl, rfl, Or.inr rfl, by simp⟩
  · exact ⟨rfl, rfl, rfl, rfl, rfl, rfl, rfl, rfl, Or.inl rfl, by simp⟩

lemma recognize_stage_preserves (tools : Tools) (st : OrchState) (sigs : List Signal) :
    (recognize_stage tools st sigs).1.stm_utterances = st.stm_utterances ∧
    (recognize_stage tools st sigs).1.last_speaker = st.last_speaker ∧
    (recognize_stage tools st sigs).1.turn_count_since_coach = st.turn_count_since_coach ∧
    (recognize_stage tools st sigs).1.turns_since_topic = st.turns_since_topic ∧
    (recognize_stage tools st sigs).1.turns_since_context = st.turns_since_context ∧
    (recognize_stage tools st sigs).1.last_coach_ts = st.last_coach_ts ∧
    (recognize_stage tools st sigs).1.active_person_id = st.active_person_id ∧
    (recognize_stage tools st sigs).1.person_context = st.person_context ∧
    (recognize_stage tools st sigs).1.recent_topics = st.recent_topics ∧
    ((recognize_stage tools st sigs).2.2 = [] ∨
      (recognize_stage tools st sigs).2.2 = [TraceEv.recognizeName]) := by
  unfold recognize_stage
  split
  · split
    · split
      · exact ⟨rfl, rfl, rfl, rfl, rfl, rfl, rfl, rfl, rfl, Or.inr rfl⟩
      · exact ⟨rfl, rfl, rfl, rfl, rfl, rfl, rfl, rfl, rfl, Or.inr rfl⟩
    · exact ⟨rfl, rfl, rfl, rfl, rfl, rfl, rfl, rfl, rfl, Or.inr rfl⟩
  · exact ⟨rfl, rfl, rfl, rfl, rfl, rfl, rfl, rfl, rfl, Or.inl rfl⟩

lemma recognize_stage_not_attempted (tools : Tools) (st : OrchState) (sigs : List Signal)
    (h : ¬(optTruthy st.active_person_id = true ∧ st.recognized_name = none ∧
      st.stm_utterances.length ≥ 2)) :
    recognize_stage tools st sigs = (st, sigs, []) := by
  unfold recognize_stage
  rw [if_neg h]

lemma recognize_stage_attempted_iff (tools : Tools) (st : OrchState) (sigs : List Signal) :
    TraceEv.recognizeName ∈ (recognize_stage tools st sigs).2.2 ↔
      (optTruthy st.active_person_id = true ∧ st.recognized_name = none ∧
        st.stm_utterances.length ≥ 2) := by
  unfold recognize_stage
  split
  · split
    · split
      · simp_all
      · simp_all
    · simp_all
  · simp_all

lemma recognize_stage_changed (tools : Tools) (st : OrchState) (sigs : List Signal)
    (h : (recognize_stage tools st sigs).1.recognized_name ≠ st.recognized_name) :
    ∃ nr, tools.recognize_person_name st.stm_utterances = .ok nr ∧
      nr.confidence.getD 0 ≥ 0.7 ∧ optTruthy nr.name = true ∧
      (recognize_stage tools st sigs).1.recognized_name = nr.name := by
  revert h
  unfold recognize_stage
  split
  · split
    · rename_i nr heq
      split
      · rename_i hacc
        intro _
        exact ⟨nr, heq, hacc.1, hacc.2, rfl⟩
      · intro h
        exact absurd rfl h
    · intro h
      exact absurd rfl h
  · intro h
    exact absurd rfl h

lemma store_candidates_trace (tools : Tools) (pid : String) (tags : List String)
    (cs : List Cand) :
    ∀ ev ∈ (store_candidates tools pid tags cs).2.2, ∃ k, ev = TraceEv.storeFact k := by
  induction cs with
  | nil => simp [store_candidates]
  | cons c rest ih =>
    unfold store_candidates
    dsimp only
    split
    · exact ih
    · split
      · intro ev hev
        rcases List.mem_cons.mp hev with rfl | hev'
        · exact ⟨_, rfl⟩
        · exact ih ev hev'
      · intro ev hev
        rcases List.mem_cons.mp hev with rfl | hev'
        · exact ⟨_, rfl⟩
        · exact ih ev hev'

lemma run_coach_preserves (tools : Tools) (st : OrchState) (sigs : List Signal) :
    (run_coach tools st sigs).2.2.1.stm_utterances = st.stm_utterances ∧
    (run_coach tools st sigs).2.2.1.last_speaker = st.last_speaker ∧
    (run_coach tools st sigs).2.2.1.turn_count_since_coach = st.turn_count_since_coach ∧
    (run_coach tools st sigs).2.2.1.turns_since_topic = st.turns_since_topic ∧
    (run_coach tools st sigs).2.2.1.turns_since_context = st.turns_since_context ∧
    (run_coach tools st sigs).2.2.1.last_coach_ts = st.last_coach_ts ∧
    (run_coach tools st sigs).2.2.1.active_person_id = st.active_person_id ∧
    (run_coach tools st sigs).2.2.1.recognized_name
      = (recognize_stage tools st sigs).1.recognized_name ∧
    TraceEv.coachDecide ∈ (run_coach tools st sigs).2.2.2.2 := by
  obtain ⟨h1, h2, h3, h4, h5, h6, h7, -, -, -⟩ := recognize_stage_preserves tools st sigs
  unfold run_coach
  dsimp only
  split
  · exact ⟨h1, h2, h3, h4, h5, h6, h7, rfl, by simp⟩
  · split
    · exact ⟨h1, h2, h3, h4, h5, h6, h7, rfl, by simp⟩
    · exact ⟨h1, h2, h3, h4, h5, h6, h7, rfl, by simp⟩

lemma run_coach_recognizeName_iff (tools : Tools) (st : OrchState) (sigs : List Signal) :
    TraceEv.recognizeName ∈ (run_coach tools st sigs).2.2.2.2 ↔
      TraceEv.recognizeName ∈ (recognize_stage tools st sigs).2.2 := by
  have hsf := store_candidates_trace tools
  unfold run_coach
  dsimp only
  split
  · simp
  · split
    · constructor
      · intro h
        rcases List.mem_append.mp h with h' | h'
        · rcases List.mem_append.mp h' with h'' | h''
          · exact h''
          · simp at h''
        · rcases hsf _ _ _ _ h' with ⟨k, hk⟩
          exact absurd hk (by simp)
      · intro h
        exact List.mem_append.mpr (Or.inl (List.mem_append.mpr (Or.inl h)))
    · simp

lemma should_call_coach_time (cfg : OrchConfig) (now : ℚ) (st : OrchState)
    (spk txt : Option String)
    (h : should_call_coach cfg now st (.utterance_final spk txt) = true) :
    st.last_coach_ts + cfg.coach_min_interval_sec ≤ now := by
  unfold should_call_coach at h
  by_cases hlt : now - st.last_coach_ts < cfg.coach_min_interval_sec
  · rw [if_pos hlt] at h
    exact absurd h (by simp)
  · linarith [not_lt.mp hlt]

lemma coach_stage_not_fired (cfg : OrchConfig) (tools : Tools) (now : ℚ) (st : OrchState)
    (ev : Event) (sigs : List Signal)
    (h : should_call_coach cfg now st ev = false) :
    coach_stage cfg tools now st ev sigs = ({}, {}, st, sigs, []) := by
  unfold coach_stage
  rw [if_neg (by simp [h])]

end OrchStageLemmas

section HandleEventLemmas

open ConversationOrchestrator

lemma handle_event_utt_state (cfg : OrchConfig) (tools : Tools) (now : ℚ) (st : OrchState)
    (spk txt : Option String) :
    (handle_event cfg tools now st (.utterance_final spk txt)).state =
      (coach_stage cfg tools now
        (topic_stage cfg tools (context_stage cfg tools (append_stage st spk txt) []).1
          (context_stage cfg tools (append_stage st spk txt) []).2.1).1
        (.utterance_final spk txt)
        (topic_stage cfg tools (context_stage cfg tools (append_stage st spk txt) []).1
          (context_stage cfg tools (append_stage st spk txt) []).2.1).2.1).2.2.1 := rfl

lemma handle_event_utt_trace (cfg : OrchConfig) (tools : Tools) (now : ℚ) (st : OrchState)
    (spk txt : Option String) :
    (handle_event cfg tools now st (.utterance_final spk txt)).trace =
      (context_stage cfg tools (append_stage st spk txt) []).2.2 ++
      (topic_stage cfg tools (context_stage cfg tools (append_stage st spk txt) []).1
        (context_stage cfg tools (append_stage st spk txt) []).2.1).2.2 ++
      (coach_stage cfg tools now
        (topic_stage cfg tools (context_stage cfg tools (append_stage st spk txt) []).1
          (context_stage cfg tools (append_stage st spk txt) []).2.1).1
        (.utterance_final spk txt)
        (topic_stage cfg tools (context_stage cfg tools (append_stage st spk txt) []).1
          (context_stage cfg tools (append_stage st spk txt) []).2.1).2.1).2.2.2.2 := rfl

/-- The coaching gate through one `utterance_final` step: a coach
invocation in the step's trace implies the wall-clock gate held at entry,
and the step records `now` as the new coach timestamp; a step without a
coach invocation leaves the timestamp untouched. -/
lemma handle_event_utt_coach (cfg : OrchConfig) (tools : Tools) (now : ℚ) (st : OrchState)
    (spk txt : Option String) :
    (TraceEv.coachDecide ∈ (handle_event cfg tools now st (.utterance_final spk txt)).trace →
      st.last_coach_ts + cfg.coach_min_interval_sec ≤ now ∧
      (handle_event cfg tools now st (.utterance_final spk txt)).state.last_coach_ts = now) ∧
    (TraceEv.coachDecide ∉ (handle_event cfg tools now st (.utterance_final spk txt)).trace →
      (handle_event cfg tools now st (.utterance_final spk txt)).state.last_coach_ts
        = st.last_coach_ts) := by
  obtain ⟨hap, -, -, -, -⟩ := append_stage_preserves st spk txt
  obtain ⟨-, -, -, -, c2lc, -, -, -, -, c2tr⟩ :=
    context_stage_preserves cfg tools (append_stage st spk txt) []
  obtain ⟨-, -, -, -, t3lc, -, -, -, -, t3tr⟩ :=
    topic_stage_preserves cfg tools (context_stage cfg tools (append_stage st spk txt) []).1
      (context_stage cfg tools (append_stage st spk txt) []).2.1
  rw [handle_event_utt_state, handle_event_utt_trace]
  have hlast3 : (topic_stage cfg tools (context_stage cfg tools (append_stage st spk txt) []).1
      (context_stage cfg tools (append_stage st spk txt) []).2.1).1.last_coach_ts
      = st.last_coach_ts := by
    rw [t3lc, c2lc, hap]
  by_cases hg : should_call_coach cfg now
      (topic_stage cfg tools (context_stage cfg tools (append_stage st spk txt) []).1
        (context_stage cfg tools (append_stage st spk txt) []).2.1).1
      (.utterance_final spk txt) = true
  · have hcs1 : (coach_stage cfg tools now
        (topic_stage cfg tools (context_stage cfg tools (append_stage st spk txt) []).1
          (context_stage cfg tools (append_stage st spk txt) []).2.1).1
        (.utterance_final spk txt)
        (topic_stage cfg tools (context_stage cfg tools (append_stage st spk txt) []).1
          (context_stage cfg tools (append_stage st spk txt) []).2.1).2.1).2.2.1.last_coach_ts
        = now := by
      unfold coach_stage
      rw [if_pos hg]
    have hcsm : TraceEv.coachDecide ∈ (coach_stage cfg tools now
        (topic_stage cfg tools (context_stage cfg tools (append_stage st spk txt) []).1
          (context_stage cfg tools (append_stage st spk txt) []).2.1).1
        (.utterance_final spk txt)
        (topic_stage cfg tools (context_stage cfg tools (append_stage st spk txt) []).1
          (context_stage cfg tools (append_stage st spk txt) []).2.1).2.1).2.2.2.2 := by
      unfold coach_stage
      rw [if_pos hg]
      exact (run_coach_preserves tools _ _).2.2.2.2.2.2.2.2
    constructor
    · intro _
      refine ⟨?_, hcs1⟩
      have ht := should_call_coach_time cfg now _ spk txt hg
      rw [hlast3] at ht
      exact ht
    · intro hnot
      exact absurd (List.mem_append.mpr (Or.inr hcsm)) hnot
  · have heq := coach_stage_not_fired cfg tools now
      (topic_stage cfg tools (context_stage cfg tools (append_stage st spk txt) []).1
        (context_stage cfg tools (append_stage st spk txt) []).2.1).1
      (.utterance_final spk txt)
      (topic_stage cfg tools (context_stage cfg tools (append_stage st spk txt) []).1
        (context_stage cfg tools (append_stage st spk txt) []).2.1).2.1
      (by simpa using hg)
    constructor
    · intro hmem
      exfalso
      rcases List.mem_append.mp hmem with h' | h'
      · rcases List.mem_append.mp h' with h'' | h''
        · rcases c2tr _ h'' with ⟨pid, hpid⟩
          exact absurd hpid (by simp)
        · have := t3tr _ h''
          exact absurd this (by simp)
      · rw [heq] at h'
        simp at h'
    · intro _
      rw [heq]
      exact hlast3

/-- Run-level bound: every future coach-call time is at least one full
interval after the recorded coach timestamp, and the call times are
pairwise separated by at least the interval. -/
lemma coachCallTimes_spec (cfg : OrchConfig) (tools : Tools)
    (hι : 0 ≤ cfg.coach_min_interval_sec) :
    ∀ (evs : List (ℚ × Event)) (st : OrchState),
      (∀ p ∈ evs, p.2.isUtteranceFinal = true) →
      (∀ x ∈ coachCallTimes cfg tools st evs, st.last_coach_ts + cfg.coach_min_interval_sec ≤ x) ∧
      List.Pairwise (fun a b => a + cfg.coach_min_interval_sec ≤ b)
        (coachCallTimes cfg tools st evs) := by
  intro evs
  induction evs with
  | nil =>
    intro st _
    constructor
    · intro x hx
      simp [coachCallTimes] at hx
    · simp [coachCallTimes]
  | cons p rest ih =>
    intro st hev
    obtain ⟨t, ev⟩ := p
    have hevh : ev.isUtteranceFinal = true := hev (t, ev) (List.mem_cons_self _ _)
    obtain ⟨spk, txt, rfl⟩ : ∃ spk txt, ev = Event.utterance_final spk txt := by
      cases ev with
      | utterance_final spk txt => exact ⟨spk, txt, rfl⟩
      | person_detected _ => simp [Event.isUtteranceFinal] at hevh
      | conversation_end => simp [Event.isUtteranceFinal] at hevh
    have hrest : ∀ q ∈ rest, q.2.isUtteranceFinal = true := fun q hq =>
      hev q (List.mem_cons_of_mem _ hq)
    unfold coachCallTimes
    dsimp only
    by_cases hm : TraceEv.coachDecide ∈
        (handle_event cfg tools t st (.utterance_final spk txt)).trace
    · rw [if_pos hm]
      obtain ⟨htime, hlast⟩ := (handle_event_utt_coach cfg tools t st spk txt).1 hm
      obtain ⟨ihb, ihp⟩ :=
        ih (handle_event cfg tools t st (.utterance_final spk txt)).state hrest
      rw [hlast] at ihb
      constructor
      · intro x hx
        rcases List.mem_cons.mp hx with rfl | hx'
        · exact htime
        · have := ihb x hx'
          linarith
      · refine List.pairwise_cons.mpr ⟨?_, ihp⟩
        intro x hx
        have := ihb x hx
        linarith
    · rw [if_neg hm]
      have hlast := (handle_event_utt_coach cfg tools t st spk txt).2 hm
      obtain ⟨ihb, ihp⟩ :=
        ih (handle_event cfg tools t st (.utterance_final spk txt)).state hrest
      rw [hlast] at ihb
      exact ⟨ihb, ihp⟩

end HandleEventLemmas

/-! ## Claim C1 -/

/-- C1: over any burst of `utterance_final` events for the same active
conversation (no person switch in between), the steps that invoke the
external coaching-decision call are pairwise separated by at least
`coach_min_interval_sec` of wall-clock time: the time gate is checked
before the turn-count threshold and the trigger-phrase override, so
neither can bypass it — this holds for every tool behavior, every event
content, and every starting state. -/
theorem C1_coach_interval (cfg : OrchConfig) (tools : Tools) (st : OrchState)
    (evs : List (ℚ × Event))
    (hι : 0 ≤ cfg.coach_min_interval_sec)
    (hev : ∀ p ∈ evs, p.2.isUtteranceFinal = true) :
    List.Pairwise (fun a b => a + cfg.coach_min_interval_sec ≤ b)
      (ConversationOrchestrator.coachCallTimes cfg tools st evs) :=
  (coachCallTimes_spec cfg tools hι evs st hev).2

/-- The fully successful tool set used by concrete runs. -/
def toolsAllOk : Tools :=
  ⟨fun _ _ _ => .ok 1, fun _ => .ok 2, fun _ => .ok {},
   fun _ _ _ _ _ => .ok {}, fun _ _ _ _ _ _ _ => .ok 0, fun _ _ => .ok ()⟩

/-- C1 (witness): a concrete three-event burst at times 10, 10.5, 12 whose
coach calls are pairwise separated by the default 1.2-second interval. -/
theorem C1_coach_interval_witness :
    List.Pairwise (fun a b => a + ({} : OrchConfig).coach_min_interval_sec ≤ b)
      (ConversationOrchestrator.coachCallTimes {} toolsAllOk
        { active_person_id := some "p", turn_count_since_coach := 2 }
        [(10, .utterance_final (some "user") (some "hello there")),
         (21/2, .utterance_final (some "other") (some "hi")),
         (12, .utterance_final (some "user") (some "what do you think"))]) := by
  exact C1_coach_interval {} toolsAllOk
    { active_person_id := some "p", turn_count_since_coach := 2 }
    [(10, .utterance_final (some "user") (some "hello there")),
     (21/2, .utterance_final (some "other") (some "hi")),
     (12, .utterance_final (some "user") (some "what do you think"))]
    (by norm_num [OrchConfig.coach_min_interval_sec])
    (by decide)

/-! ## Claim C7 -/

/-- A tool set whose person-context fetch raises. -/
def toolsRetrieveFails : Tools :=
  ⟨fun _ _ _ => .error "net down", fun _ => .ok 7, fun _ => .ok {},
   fun _ _ _ _ _ => .ok {}, fun _ _ _ _ _ _ _ => .ok 0, fun _ _ => .ok ()⟩

/-- C7 (counterexample): the claim says a failed context fetch during a
person switch "emits an error signal in the returned payload".  It does
not: `_switch_person` hands `_safe_retrieve_context` a fresh empty
`signals` list, which is discarded, so even though the fetch raises (the
tools below always raise) and the empty default context is substituted,
the returned payload's signals are exactly `[person_switched]` with no
error entry. -/
theorem C7_counterexample :
    toolsRetrieveFails.retrieve_person_context "p1" ({} : OrchConfig).fact_limit
        ({} : OrchConfig).threshold = .error "net down" ∧
    (ConversationOrchestrator.handle_event {} toolsRetrieveFails 0 {}
      (.person_detected (some "p1"))).state.person_context = Ctx.defaultFor "p1" ∧
    (ConversationOrchestrator.handle_event {} toolsRetrieveFails 0 {}
      (.person_detected (some "p1"))).payload.signals = [Signal.person_switched "p1"] ∧
    (∀ w m, Signal.errorSig w m ∉
      (ConversationOrchestrator.handle_event {} toolsRetrieveFails 0 {}
        (.person_detected (some "p1"))).payload.signals) := by
  refine ⟨rfl, rfl, rfl, ?_⟩
  intro w m hmem
  have : (ConversationOrchestrator.handle_event {} toolsRetrieveFails 0 {}
      (.person_detected (some "p1"))).payload.signals = [Signal.person_switched "p1"] := rfl
  rw [this] at hmem
  simp at hmem

/-- C7 (amended): a `person_detected` event whose (truthy) id differs from
the active id performs the full switch: transcript and topic cache
cleared, timers and counters reset, `recognized_name` cleared, the person
context fetched synchronously — on fetch failure the empty default context
is substituted and the exception never propagates, but the error signal is
appended to a discarded local list, so the returned payload carries only
the `person_switched` signal; the handler returns immediately with default
coach/memory outputs and no coaching-decision call. -/
theorem C7_person_switch (cfg : OrchConfig) (tools : Tools) (now : ℚ) (st : OrchState)
    (p : String) (hp1 : p ≠ "") (hp2 : some p ≠ st.active_person_id) :
    (ConversationOrchestrator.handle_event cfg tools now st (.person_detected (some p))).state.active_person_id = some p ∧
    (ConversationOrchestrator.handle_event cfg tools now st (.person_detected (some p))).state.stm_utterances = [] ∧
    (ConversationOrchestrator.handle_event cfg tools now st (.person_detected (some p))).state.recent_topics = Topics.noConversation ∧
    (ConversationOrchestrator.handle_event cfg tools now st (.person_detected (some p))).state.last_coach_ts = 0 ∧
    (ConversationOrchestrator.handle_event cfg tools now st (.person_detected (some p))).state.turn_count_since_coach = 0 ∧
    (ConversationOrchestrator.handle_event cfg tools now st (.person_detected (some p))).state.recognized_name = none ∧
    (ConversationOrchestrator.handle_event cfg tools now st (.person_detected (some p))).state.turns_since_topic = 0 ∧
    (ConversationOrchestrator.handle_event cfg tools now st (.person_detected (some p))).state.turns_since_context = 0 ∧
    (ConversationOrchestrator.handle_event cfg tools now st (.person_detected (some p))).state.person_context
      = (ConversationOrchestrator.safe_retrieve_context cfg tools p []).1 ∧
    (∀ e, tools.retrieve_person_context p cfg.fact_limit cfg.threshold = .error e →
      (ConversationOrchestrator.handle_event cfg tools now st (.person_detected (some p))).state.person_context
        = Ctx.defaultFor p) ∧
    (ConversationOrchestrator.handle_event cfg tools now st (.person_detected (some p))).payload.signals
      = [Signal.person_switched p] ∧
    (ConversationOrchestrator.handle_event cfg tools now st (.person_detected (some p))).payload.coach = {} ∧
    (ConversationOrchestrator.handle_event cfg tools now st (.person_detected (some p))).payload.memory = {} ∧
    (ConversationOrchestrator.handle_event cfg tools now st (.person_detected (some p))).trace
      = [TraceEv.retrieveContext p] ∧
    TraceEv.coachDecide ∉
      (ConversationOrchestrator.handle_event cfg tools now st (.person_detected (some p))).trace := by
  have hcond : optTruthy (some p) = true ∧ (some p : Option String) ≠ st.active_person_id :=
    ⟨by simp [optTruthy, hp1], hp2⟩
  have hstep : ConversationOrchestrator.handle_event cfg tools now st (.person_detected (some p)) =
      ⟨(ConversationOrchestrator.switch_person cfg tools st p).1,
       ConversationOrchestrator.build_payload
         (ConversationOrchestrator.switch_person cfg tools st p).1 {} {}
         [.person_switched p],
       (ConversationOrchestrator.switch_person cfg tools st p).2⟩ := by
    unfold ConversationOrchestrator.handle_event
    dsimp only
    rw [if_pos hcond]
    rfl
  rw [hstep]
  refine ⟨rfl, rfl, rfl, rfl, rfl, rfl, rfl, rfl, rfl, ?_, rfl, rfl, rfl, rfl, ?_⟩
  · intro e he
    show (ConversationOrchestrator.safe_retrieve_context cfg tools p []).1 = Ctx.defaultFor p
    unfold ConversationOrchestrator.safe_retrieve_context
    rw [he]
  · intro hmem
    simp [ConversationOrchestrator.switch_person] at hmem

/-- C7 (witness): a concrete switch to person `"q"` with succeeding tools:
the state is fully reset and only the context fetch is traced. -/
theorem C7_person_switch_witness :
    (ConversationOrchestrator.handle_event {} toolsAllOk 5 {} (.person_detected (some "q"))).state.active_person_id = some "q" ∧
    (ConversationOrchestrator.handle_event {} toolsAllOk 5 {} (.person_detected (some "q"))).trace
      = [TraceEv.retrieveContext "q"] := by
  have h := C7_person_switch {} toolsAllOk 5 {} "q" (by decide) (by decide)
  exact ⟨h.1, h.2.2.2.2.2.2.2.2.2.2.2.2.2.1⟩

section CoachStagePreserve

open ConversationOrchestrator

lemma coach_stage_preserves (cfg : OrchConfig) (tools : Tools) (now : ℚ) (st : OrchState)
    (ev : Event) (sigs : List Signal) :
    (coach_stage cfg tools now st ev sigs).2.2.1.stm_utterances = st.stm_utterances ∧
    (coach_stage cfg tools now st ev sigs).2.2.1.last_speaker = st.last_speaker ∧
    (coach_stage cfg tools now st ev sigs).2.2.1.turns_since_topic = st.turns_since_topic ∧
    (coach_stage cfg tools now st ev sigs).2.2.1.turns_since_context = st.turns_since_context ∧
    (coach_stage cfg tools now st ev sigs).2.2.1.active_person_id = st.active_person_id ∧
    ((coach_stage cfg tools now st ev sigs).2.2.1.turn_count_since_coach
        = st.turn_count_since_coach ∨
      (coach_stage cfg tools now st ev sigs).2.2.1.turn_count_since_coach = 0) := by
  unfold coach_stage
  split
  · obtain ⟨h1, h2, -, h4, h5, -, h7, -, -⟩ := run_coach_preserves tools st sigs
    exact ⟨h1, h2, h4, h5, h7, Or.inr rfl⟩
  · exact ⟨rfl, rfl, rfl, rfl, rfl, Or.inl rfl⟩

end CoachStagePreserve

/-! ## Claim C10 -/

/-- An orchestrator state mid-conversation used by the concrete runs:
an active person, two utterances on record, and the coaching turn counter
at its threshold. -/
def stMid : OrchState :=
  { active_person_id := some "p",
    stm_utterances := [⟨"other", "hi"⟩, ⟨"user", "yo"⟩],
    turn_count_since_coach := 2 }

/-- C10 (counterexample): an `utterance_final` event whose text is
whitespace-only appends nothing — yet `handle_event` still runs the
refresh and coaching logic, and here (time gate satisfied, turn counter at
its threshold) the coach fires and *resets* the since-coach counter from 2
to 0, so "leaves all three turn counters unchanged" is false. -/
theorem C10_counterexample :
    pythonStrip (strOr (some "   ") "") = "" ∧
    (ConversationOrchestrator.handle_event {} toolsAllOk 10 stMid
      (.utterance_final none (some "   "))).state.stm_utterances = stMid.stm_utterances ∧
    stMid.turn_count_since_coach = 2 ∧
    (ConversationOrchestrator.handle_event {} toolsAllOk 10 stMid
      (.utterance_final none (some "   "))).state.turn_count_since_coach = 0 := by
  refine ⟨by decide, ?_, rfl, ?_⟩ <;>
    norm_num +decide [ConversationOrchestrator.handle_event,
      ConversationOrchestrator.append_stage, ConversationOrchestrator.context_stage,
      ConversationOrchestrator.topic_stage, ConversationOrchestrator.coach_stage,
      ConversationOrchestrator.should_call_coach, ConversationOrchestrator.run_coach,
      ConversationOrchestrator.recognize_stage, ConversationOrchestrator.store_candidates,
      ConversationOrchestrator.safe_retrieve_context,
      ConversationOrchestrator.has_trigger_phrase, ConversationOrchestrator.build_payload,
      containsSub, pythonStrip, pythonLower, strOr, optTruthy, ratOr, truncMsg,
      stMid, toolsAllOk, OrchConfig.coach_min_interval_sec, OrchConfig.coach_turns_interval,
      OrchConfig.topic_refresh_turns, OrchConfig.context_refresh_turns,
      OrchConfig.fact_limit, OrchConfig.threshold]

/-- C10 (amended): for every `utterance_final` event whose utterance text
is empty or whitespace-only, nothing is appended: the transcript,
`last_speaker` stay unchanged and no turn counter is incremented.  The
refresh/coaching logic still runs, however, so each of the three counters
either keeps its value or is reset to zero (since-coach when the coach
fires; the refresh counters when their thresholds had been reached); in
particular no counter ever increases. -/
theorem C10_empty_utterance (cfg : OrchConfig) (tools : Tools) (now : ℚ) (st : OrchState)
    (spk txt : Option String) (hempty : pythonStrip (strOr txt "") = "") :
    (ConversationOrchestrator.handle_event cfg tools now st (.utterance_final spk txt)).state.stm_utterances = st.stm_utterances ∧
    (ConversationOrchestrator.handle_event cfg tools now st (.utterance_final spk txt)).state.last_speaker = st.last_speaker ∧
    ((ConversationOrchestrator.handle_event cfg tools now st (.utterance_final spk txt)).state.turn_count_since_coach = st.turn_count_since_coach ∨
      (ConversationOrchestrator.handle_event cfg tools now st (.utterance_final spk txt)).state.turn_count_since_coach = 0) ∧
    ((ConversationOrchestrator.handle_event cfg tools now st (.utterance_final spk txt)).state.turns_since_topic = st.turns_since_topic ∨
      (ConversationOrchestrator.handle_event cfg tools now st (.utterance_final spk txt)).state.turns_since_topic = 0) ∧
    ((ConversationOrchestrator.handle_event cfg tools now st (.utterance_final spk txt)).state.turns_since_context = st.turns_since_context ∨
      (ConversationOrchestrator.handle_event cfg tools now st (.utterance_final spk txt)).state.turns_since_context = 0) ∧
    (ConversationOrchestrator.handle_event cfg tools now st (.utterance_final spk txt)).state.turn_count_since_coach ≤ st.turn_count_since_coach ∧
    (ConversationOrchestrator.handle_event cfg tools now st (.utterance_final spk txt)).state.turns_since_topic ≤ st.turns_since_topic ∧
    (ConversationOrchestrator.handle_event cfg tools now st (.utterance_final spk txt)).state.turns_since_context ≤ st.turns_since_context := by
  have happ := append_stage_of_empty st spk txt hempty
  rw [handle_event_utt_state cfg tools now st spk txt, happ]
  obtain ⟨c2stm, c2spk, c2tc, c2tt, c2lc, c2rn, c2ap, c2rt, c2tsc, -⟩ :=
    context_stage_preserves cfg tools st []
  obtain ⟨t3stm, t3spk, t3tc, t3tsc, t3lc, t3rn, t3ap, t3pc, t3tt, -⟩ :=
    topic_stage_preserves cfg tools (ConversationOrchestrator.context_stage cfg tools st []).1
      (ConversationOrchestrator.context_stage cfg tools st []).2.1
  obtain ⟨k1, k2, k3, k4, k5, k6⟩ :=
    coach_stage_preserves cfg tools now
      (ConversationOrchestrator.topic_stage cfg tools
        (ConversationOrchestrator.context_stage cfg tools st []).1
        (ConversationOrchestrator.context_stage cfg tools st []).2.1).1
      (.utterance_final spk txt)
      (ConversationOrchestrator.topic_stage cfg tools
        (ConversationOrchestrator.context_stage cfg tools st []).1
        (ConversationOrchestrator.context_stage cfg tools st []).2.1).2.1
  have hturn : (ConversationOrchestrator.coach_stage cfg tools now
      (ConversationOrchestrator.topic_stage cfg tools
        (ConversationOrchestrator.context_stage cfg tools st []).1
        (ConversationOrchestrator.context_stage cfg tools st []).2.1).1
      (.utterance_final spk txt)
      (ConversationOrchestrator.topic_stage cfg tools
        (ConversationOrchestrator.context_stage cfg tools st []).1
        (ConversationOrchestrator.context_stage cfg tools st []).2.1).2.1).2.2.1.turn_count_since_coach
      = st.turn_count_since_coach ∨
      (ConversationOrchestrator.coach_stage cfg tools now
      (ConversationOrchestrator.topic_stage cfg tools
        (ConversationOrchestrator.context_stage cfg tools st []).1
        (ConversationOrchestrator.context_stage cfg tools st []).2.1).1
      (.utterance_final spk txt)
      (ConversationOrchestrator.topic_stage cfg tools
        (ConversationOrchestrator.context_stage cfg tools st []).1
        (ConversationOrchestrator.context_stage cfg tools st []).2.1).2.1).2.2.1.turn_count_since_coach
      = 0 := by
    rcases k6 with h | h
    · exact Or.inl (by rw [h, t3tc, c2tc])
    · exact Or.inr h
  have htop : (ConversationOrchestrator.coach_stage cfg tools now
      (ConversationOrchestrator.topic_stage cfg tools
        (ConversationOrchestrator.context_stage cfg tools st []).1
        (ConversationOrchestrator.context_stage cfg tools st []).2.1).1
      (.utterance_final spk txt)
      (ConversationOrchestrator.topic_stage cfg tools
        (ConversationOrchestrator.context_stage cfg tools st []).1
        (ConversationOrchestrator.context_stage cfg tools st []).2.1).2.1).2.2.1.turns_since_topic
      = st.turns_since_topic ∨
      (ConversationOrchestrator.coach_stage cfg tools now
      (ConversationOrchestrator.topic_stage cfg tools
        (ConversationOrchestrator.context_stage cfg tools st []).1
        (ConversationOrchestrator.context_stage cfg tools st []).2.1).1
      (.utterance_final spk txt)
      (ConversationOrchestrator.topic_stage cfg tools
        (ConversationOrchestrator.context_stage cfg tools st []).1
        (ConversationOrchestrator.context_stage cfg tools st []).2.1).2.1).2.2.1.turns_since_topic
      = 0 := by
    rcases t3tt with h | h
    · exact Or.inl (by rw [k3, h, c2tt])
    · exact Or.inr (by rw [k3, h])
  have hctx : (ConversationOrchestrator.coach_stage cfg tools now
      (ConversationOrchestrator.topic_stage cfg tools
        (ConversationOrchestrator.context_stage cfg tools st []).1
        (ConversationOrchestrator.context_stage cfg tools st []).2.1).1
      (.utterance_final spk txt)
      (ConversationOrchestrator.topic_stage cfg tools
        (ConversationOrchestrator.context_stage cfg tools st []).1
        (ConversationOrchestrator.context_stage cfg tools st []).2.1).2.1).2.2.1.turns_since_context
      = st.turns_since_context ∨
      (ConversationOrchestrator.coach_stage cfg tools now
      (ConversationOrchestrator.topic_stage cfg tools
        (ConversationOrchestrator.context_stage cfg tools st []).1
        (ConversationOrchestrator.context_stage cfg tools st []).2.1).1
      (.utterance_final spk txt)
      (ConversationOrchestrator.topic_stage cfg tools
        (ConversationOrchestrator.context_stage cfg tools st []).1
        (ConversationOrchestrator.context_stage cfg tools st []).2.1).2.1).2.2.1.turns_since_context
      = 0 := by
    rcases c2tsc with h | h
    · exact Or.inl (by rw [k4, t3tsc, h])
    · exact Or.inr (by rw [k4, t3tsc, h])
  refine ⟨by rw [k1, t3stm, c2stm], by rw [k2, t3spk, c2spk], hturn, htop, hctx, ?_, ?_, ?_⟩
  · rcases hturn with h | h
    · omega
    · omega
  · rcases htop with h | h
    · omega
    · omega
  · rcases hctx with h | h
    · omega
    · omega

/-- C10 (witness): a whitespace-only event at a state whose counters are
below every threshold changes none of the three counters. -/
theorem C10_empty_utterance_witness :
    (ConversationOrchestrator.handle_event {} toolsAllOk 0
      { active_person_id := some "p", turn_count_since_coach := 1 }
      (.utterance_final none (some "  "))).state.stm_utterances = [] ∧
    (ConversationOrchestrator.handle_event {} toolsAllOk 0
      { active_person_id := some "p", turn_count_since_coach := 1 }
      (.utterance_final none (some "  "))).state.turn_count_since_coach ≤ 1 := by
  have h := C10_empty_utterance {} toolsAllOk 0
    { active_person_id := some "p", turn_count_since_coach := 1 } none (some "  ")
    (by decide)
  exact ⟨h.1, h.2.2.2.2.2.1⟩

section RecognizeLemmas

open ConversationOrchestrator

lemma coach_stage_recognize (cfg : OrchConfig) (tools : Tools) (now : ℚ) (st : OrchState)
    (ev : Event) (sigs : List Signal) :
    (TraceEv.recognizeName ∈ (coach_stage cfg tools now st ev sigs).2.2.2.2 →
      optTruthy st.active_person_id = true ∧ st.recognized_name = none ∧
      st.stm_utterances.length ≥ 2) ∧
    ((coach_stage cfg tools now st ev sigs).2.2.1.recognized_name ≠ st.recognized_name →
      ∃ nr, tools.recognize_person_name st.stm_utterances = .ok nr ∧
        nr.confidence.getD 0 ≥ 0.7 ∧ optTruthy nr.name = true ∧
        (coach_stage cfg tools now st ev sigs).2.2.1.recognized_name = nr.name) ∧
    (∀ n, st.recognized_name = some n →
      TraceEv.recognizeName ∉ (coach_stage cfg tools now st ev sigs).2.2.2.2 ∧
      (coach_stage cfg tools now st ev sigs).2.2.1.recognized_name = some n) := by
  unfold coach_stage
  split
  · have hiff := run_coach_recognizeName_iff tools st sigs
    have hrc := (run_coach_preserves tools st sigs).2.2.2.2.2.2.2.1
    refine ⟨?_, ?_, ?_⟩
    · intro hmem
      exact (recognize_stage_attempted_iff tools st sigs).mp (hiff.mp hmem)
    · intro hch
      have hch' : (recognize_stage tools st sigs).1.recognized_name ≠ st.recognized_name := by
        rw [← hrc]
        exact hch
      obtain ⟨nr, h1, h2, h3, h4⟩ := recognize_stage_changed tools st sigs hch'
      refine ⟨nr, h1, h2, h3, ?_⟩
      show (run_coach tools st sigs).2.2.1.recognized_name = nr.name
      rw [hrc, h4]
    · intro n hn
      have hnot : ¬(optTruthy st.active_person_id = true ∧ st.recognized_name = none ∧
          st.stm_utterances.length ≥ 2) := by
        intro hcon
        rw [hn] at hcon
        exact absurd hcon.2.1 (by simp)
      have hns := recognize_stage_not_attempted tools st sigs hnot
      constructor
      · intro hmem
        have := hiff.mp hmem
        rw [hns] at this
        simp at this
      · show (run_coach tools st sigs).2.2.1.recognized_name = some n
        rw [hrc, hns]
        exact hn
  · refine ⟨?_, ?_, ?_⟩
    · intro h
      simp at h
    · intro h
      exact absurd rfl h
    · intro n hn
      exact ⟨by simp, hn⟩

/-- Name recognition through one `utterance_final` step: attempted only
when a person is active, no name is recognized yet, and the (post-append)
transcript has at least two utterances; a change of the recognized name
can only come from a recognizer result accepted at confidence ≥ 0.7 with
a truthy name; and once a name is recognized, the step neither re-attempts
recognition nor changes the name. -/
lemma handle_event_utt_recognize (cfg : OrchConfig) (tools : Tools) (now : ℚ)
    (st : OrchState) (spk txt : Option String) :
    (TraceEv.recognizeName ∈ (handle_event cfg tools now st (.utterance_final spk txt)).trace →
      optTruthy st.active_person_id = true ∧ st.recognized_name = none ∧
      (append_stage st spk txt).stm_utterances.length ≥ 2) ∧
    ((handle_event cfg tools now st (.utterance_final spk txt)).state.recognized_name
        ≠ st.recognized_name →
      ∃ nr, tools.recognize_person_name (append_stage st spk txt).stm_utterances = .ok nr ∧
        nr.confidence.getD 0 ≥ 0.7 ∧ optTruthy nr.name = true ∧
        (handle_event cfg tools now st (.utterance_final spk txt)).state.recognized_name
          = nr.name) ∧
    (∀ n, st.recognized_name = some n →
      TraceEv.recognizeName ∉ (handle_event cfg tools now st (.utterance_final spk txt)).trace ∧
      (handle_event cfg tools now st (.utterance_final spk txt)).state.recognized_name
        = some n) := by
  obtain ⟨-, hrn, hac, -, -⟩ := append_stage_preserves st spk txt
  obtain ⟨c2stm, -, -, -, -, c2rn, c2ap, -, -, c2tr⟩ :=
    context_stage_preserves cfg tools (append_stage st spk txt) []
  obtain ⟨t3stm, -, -, -, -, t3rn, t3ap, -, -, t3tr⟩ :=
    topic_stage_preserves cfg tools (context_stage cfg tools (append_stage st spk txt) []).1
      (context_stage cfg tools (append_stage st spk txt) []).2.1
  obtain ⟨k1, k2, k3⟩ := coach_stage_recognize cfg tools now
    (topic_stage cfg tools (context_stage cfg tools (append_stage st spk txt) []).1
      (context_stage cfg tools (append_stage st spk txt) []).2.1).1
    (.utterance_final spk txt)
    (topic_stage cfg tools (context_stage cfg tools (append_stage st spk txt) []).1
      (context_stage cfg tools (append_stage st spk txt) []).2.1).2.1
  have hactive : (topic_stage cfg tools (context_stage cfg tools (append_stage st spk txt) []).1
      (context_stage cfg tools (append_stage st spk txt) []).2.1).1.active_person_id
      = st.active_person_id := by rw [t3ap, c2ap, hac]
  have hrecog : (topic_stage cfg tools (context_stage cfg tools (append_stage st spk txt) []).1
      (context_stage cfg tools (append_stage st spk txt) []).2.1).1.recognized_name
      = st.recognized_name := by rw [t3rn, c2rn, hrn]
  have hstm : (topic_stage cfg tools (context_stage cfg tools (append_stage st spk txt) []).1
      (context_stage cfg tools (append_stage st spk txt) []).2.1).1.stm_utterances
      = (append_stage st spk txt).stm_utterances := by rw [t3stm, c2stm]
  rw [handle_event_utt_state cfg tools now st spk txt,
    handle_event_utt_trace cfg tools now st spk txt]
  rw [hactive, hrecog, hstm] at k1
  rw [hrecog, hstm] at k2
  rw [hrecog] at k3
  refine ⟨?_, ?_, ?_⟩
  · intro hmem
    rcases List.mem_append.mp hmem with h' | h'
    · rcases List.mem_append.mp h' with h'' | h''
      · rcases c2tr _ h'' with ⟨pid, hpid⟩
        exact absurd hpid (by simp)
      · have := t3tr _ h''
        exact absurd this (by simp)
    · exact k1 h'
  · exact k2
  · intro n hn
    obtain ⟨hnot, hkeep⟩ := k3 n hn
    constructor
    · intro hmem
      rcases List.mem_append.mp hmem with h' | h'
      · rcases List.mem_append.mp h' with h'' | h''
        · rcases c2tr _ h'' with ⟨pid, hpid⟩
          exact absurd hpid (by simp)
        · have := t3tr _ h''
          exact absurd this (by simp)
      · exact hnot h'
    · exact hkeep

/-- Once a name is recognized, no later `utterance_final` step in a run
re-attempts recognition or changes the name. -/
lemma runEvents_no_rerecognize (cfg : OrchConfig) (tools : Tools) (n : String) :
    ∀ (evs : List (ℚ × Event)) (st : OrchState),
      (∀ p ∈ evs, p.2.isUtteranceFinal = true) →
      st.recognized_name = some n →
      TraceEv.recognizeName ∉ (runEvents cfg tools st evs).2 ∧
      (runEvents cfg tools st evs).1.recognized_name = some n := by
  intro evs
  induction evs with
  | nil =>
    intro st _ hn
    exact ⟨by simp [runEvents], hn⟩
  | cons p rest ih =>
    intro st hev hn
    obtain ⟨t, ev⟩ := p
    have hevh : ev.isUtteranceFinal = true := hev (t, ev) (List.mem_cons_self _ _)
    obtain ⟨spk, txt, rfl⟩ : ∃ spk txt, ev = Event.utterance_final spk txt := by
      cases ev with
      | utterance_final spk txt => exact ⟨spk, txt, rfl⟩
      | person_detected _ => simp [Event.isUtteranceFinal] at hevh
      | conversation_end => simp [Event.isUtteranceFinal] at hevh
    obtain ⟨hnot, hkeep⟩ :=
      (handle_event_utt_recognize cfg tools t st spk txt).2.2 n hn
    obtain ⟨ihn, ihk⟩ :=
      ih (handle_event cfg tools t st (.utterance_final spk txt)).state
        (fun q hq => hev q (List.mem_cons_of_mem _ hq)) hkeep
    unfold runEvents
    dsimp only
    constructor
    · intro hmem
      rcases List.mem_append.mp hmem with h | h
      · exact hnot h
      · exact ihn h
    · exact ihk

end RecognizeLemmas

/-! ## Claim C8 -/

/-- A tool set whose name recognizer always answers with confidence 0
(a rejection). -/
def toolsRejectName : Tools :=
  ⟨fun _ _ _ => .ok 1, fun _ => .ok 2, fun _ => .ok ⟨some "Bob", some 0⟩,
   fun _ _ _ _ _ => .ok {}, fun _ _ _ _ _ _ _ => .ok 0, fun _ _ => .ok ()⟩

/-- C8 (counterexample): the claim "once attempted for an active person it
is never retried regardless of the attempt's outcome" is false.  With a
recognizer that answers confidence 0 (a rejection), the first coach run
attempts recognition (`recognizeName` in the trace) and leaves
`recognized_name = None`; because the guard is only `recognized_name is
None`, the next coach run for the same active person attempts recognition
again. -/
theorem C8_counterexample :
    TraceEv.recognizeName ∈ (ConversationOrchestrator.handle_event {} toolsRejectName 10 stMid
      (.utterance_final (some "user") (some "hello"))).trace ∧
    (ConversationOrchestrator.handle_event {} toolsRejectName 10 stMid
      (.utterance_final (some "user") (some "hello"))).state.recognized_name = none ∧
    (ConversationOrchestrator.handle_event {} toolsRejectName 10 stMid
      (.utterance_final (some "user") (some "hello"))).state.active_person_id = some "p" ∧
    TraceEv.recognizeName ∈ (ConversationOrchestrator.handle_event {} toolsRejectName 20
      (ConversationOrchestrator.handle_event {} toolsRejectName 10 stMid
        (.utterance_final (some "user") (some "hello"))).state
      (.utterance_final (some "other") (some "and you?"))).trace := by
  refine ⟨?_, ?_, ?_, ?_⟩ <;>
    norm_num +decide [ConversationOrchestrator.handle_event,
      ConversationOrchestrator.append_stage, ConversationOrchestrator.context_stage,
      ConversationOrchestrator.topic_stage, ConversationOrchestrator.coach_stage,
      ConversationOrchestrator.should_call_coach, ConversationOrchestrator.run_coach,
      ConversationOrchestrator.recognize_stage, ConversationOrchestrator.store_candidates,
      ConversationOrchestrator.safe_retrieve_context,
      ConversationOrchestrator.has_trigger_phrase,
      ConversationOrchestrator.trigger_phrases, ConversationOrchestrator.build_payload,
      containsSub, pythonStrip, pythonLower, strOr, optTruthy, ratOr, truncMsg,
      stMid, toolsRejectName, OrchConfig.coach_min_interval_sec,
      OrchConfig.coach_turns_interval, OrchConfig.topic_refresh_turns,
      OrchConfig.context_refresh_turns, OrchConfig.fact_limit, OrchConfig.threshold]

/-- C8 (amended): for every active person, name recognition is attempted
(within an `utterance_final` step) only when the coach runs, no name has
been accepted yet, and the post-append transcript holds at least 2
utterances; a returned name changes the state only when its confidence is
≥ 0.7 and the name is truthy; and once a name has been *accepted*,
recognition is never re-attempted and the name never changes for that
active person — over a single step and over any run of `utterance_final`
events.  After a rejected or failed attempt, however, `recognized_name`
stays `None`, so recognition *is* retried on the next coach run. -/
theorem C8_name_recognition (cfg : OrchConfig) (tools : Tools) :
    (∀ (now : ℚ) (st : OrchState) (spk txt : Option String),
      TraceEv.recognizeName ∈
          (ConversationOrchestrator.handle_event cfg tools now st (.utterance_final spk txt)).trace →
        optTruthy st.active_person_id = true ∧ st.recognized_name = none ∧
        (ConversationOrchestrator.append_stage st spk txt).stm_utterances.length ≥ 2) ∧
    (∀ (now : ℚ) (st : OrchState) (spk txt : Option String),
      (ConversationOrchestrator.handle_event cfg tools now st (.utterance_final spk txt)).state.recognized_name
          ≠ st.recognized_name →
        ∃ nr, tools.recognize_person_name
            (ConversationOrchestrator.append_stage st spk txt).stm_utterances = .ok nr ∧
          nr.confidence.getD 0 ≥ 0.7 ∧ optTruthy nr.name = true ∧
          (ConversationOrchestrator.handle_event cfg tools now st (.utterance_final spk txt)).state.recognized_name
            = nr.name) ∧
    (∀ (now : ℚ) (st : OrchState) (spk txt : Option String) (n : String),
      st.recognized_name = some n →
        TraceEv.recognizeName ∉
          (ConversationOrchestrator.handle_event cfg tools now st (.utterance_final spk txt)).trace ∧
        (ConversationOrchestrator.handle_event cfg tools now st (.utterance_final spk txt)).state.recognized_name
          = some n) ∧
    (∀ (st : OrchState) (evs : List (ℚ × Event)) (n : String),
      (∀ p ∈ evs, p.2.isUtteranceFinal = true) →
      st.recognized_name = some n →
        TraceEv.recognizeName ∉ (ConversationOrchestrator.runEvents cfg tools st evs).2 ∧
        (ConversationOrchestrator.runEvents cfg tools st evs).1.recognized_name = some n) := by
  refine ⟨?_, ?_, ?_, ?_⟩
  · intro now st spk txt
    exact (handle_event_utt_recognize cfg tools now st spk txt).1
  · intro now st spk txt
    exact (handle_event_utt_recognize cfg tools now st spk txt).2.1
  · intro now st spk txt n
    exact (handle_event_utt_recognize cfg tools now st spk txt).2.2 n
  · intro st evs n hev hn
    exact runEvents_no_rerecognize cfg tools n evs st hev hn

/-- C8 (witness): with an already-accepted name `"Bob"`, a two-event burst
never re-attempts recognition and keeps the name. -/
theorem C8_name_recognition_witness :
    TraceEv.recognizeName ∉ (ConversationOrchestrator.runEvents {} toolsAllOk
      { active_person_id := some "p", recognized_name := some "Bob",
        turn_count_since_coach := 2 }
      [(10, .utterance_final (some "user") (some "hello")),
       (20, .utterance_final (some "other") (some "hi there"))]).2 ∧
    (ConversationOrchestrator.runEvents {} toolsAllOk
      { active_person_id := some "p", recognized_name := some "Bob",
        turn_count_since_coach := 2 }
      [(10, .utterance_final (some "user") (some "hello")),
       (20, .utterance_final (some "other") (some "hi there"))]).1.recognized_name
      = some "Bob" := by
  exact (C8_name_recognition {} toolsAllOk).2.2.2
    { active_person_id := some "p", recognized_name := some "Bob",
      turn_count_since_coach := 2 }
    [(10, .utterance_final (some "user") (some "hello")),
     (20, .utterance_final (some "other") (some "hi there"))]
    "Bob" (by decide) rfl

section StoreLemmas

open ConversationOrchestrator

/-- One iteration of the store loop, as a function of its own candidate
alone: `none` when the candidate is skipped (blank key or value), else the
`stored_items` entry it contributes. -/
def storeOne (tools : Tools) (person_id : String) (tags : List String) (c : Cand) :
    Option MemItem :=
  let ctype := strOr c.ctype "other"
  let key := pythonStrip (strOr c.key "")
  let value := pythonStrip (strOr c.value "")
  let conf := ratOr c.confidence 0.5
  let evidence := pythonStrip (strOr c.evidence "")
  if key = "" ∨ value = "" then none
  else
    match tools.store_person_fact person_id key value conf evidence ctype tags with
    | .ok saved => some ⟨some key, some value, some ctype, true, some saved⟩
    | .error _ => some ⟨c.key, c.value, c.ctype, false, none⟩

/-- The error signals one candidate contributes. -/
def storeOneSigs (tools : Tools) (person_id : String) (tags : List String) (c : Cand) :
    List Signal :=
  let ctype := strOr c.ctype "other"
  let key := pythonStrip (strOr c.key "")
  let value := pythonStrip (strOr c.value "")
  let conf := ratOr c.confidence 0.5
  let evidence := pythonStrip (strOr c.evidence "")
  if key = "" ∨ value = "" then []
  else
    match tools.store_person_fact person_id key value conf evidence ctype tags with
    | .ok _ => []
    | .error e => [.errorSig "store_person_fact" (truncMsg e)]

/-- The persistence calls one candidate contributes. -/
def storeOneTrace (tools : Tools) (person_id : String) (tags : List String) (c : Cand) :
    List TraceEv :=
  let ctype := strOr c.ctype "other"
  let key := pythonStrip (strOr c.key "")
  let value := pythonStrip (strOr c.value "")
  let conf := ratOr c.confidence 0.5
  let evidence := pythonStrip (strOr c.evidence "")
  if key = "" ∨ value = "" then []
  else
    match tools.store_person_fact person_id key value conf evidence ctype tags with
    | .ok _ => [.storeFact key]
    | .error _ => [.storeFact key]

def isStoreFactEv : TraceEv → Bool
  | .storeFact _ => true
  | _ => false

/-- The store loop is candidate-wise: its items, signals and calls are
the concatenation of what each candidate contributes on its own. -/
lemma store_candidates_eq (tools : Tools) (pid : String) (tags : List String) :
    ∀ cs : List Cand,
      (store_candidates tools pid tags cs).1 = cs.filterMap (storeOne tools pid tags) ∧
      (store_candidates tools pid tags cs).2.1 = cs.flatMap (storeOneSigs tools pid tags) ∧
      (store_candidates tools pid tags cs).2.2 = cs.flatMap (storeOneTrace tools pid tags) := by
  intro cs
  induction cs with
  | nil => exact ⟨rfl, rfl, rfl⟩
  | cons c rest ih =>
    obtain ⟨ih1, ih2, ih3⟩ := ih
    unfold store_candidates
    dsimp only
    rw [List.filterMap_cons, List.flatMap_cons, List.flatMap_cons]
    split
    · rename_i hskip
      rw [show storeOne tools pid tags c = none from by
          unfold storeOne
          rw [if_pos hskip],
        show storeOneSigs tools pid tags c = [] from by
          unfold storeOneSigs
          rw [if_pos hskip],
        show storeOneTrace tools pid tags c = [] from by
          unfold storeOneTrace
          rw [if_pos hskip]]
      simpa using ⟨ih1, ih2, ih3⟩
    · rename_i hkeep
      split
      · rename_i saved heq
        rw [show storeOne tools pid tags c
              = some ⟨some (pythonStrip (strOr c.key "")), some (pythonStrip (strOr c.value "")),
                  some (strOr c.ctype "other"), true, some saved⟩ from by
            unfold storeOne
            rw [if_neg hkeep, heq],
          show storeOneSigs tools pid tags c = [] from by
            unfold storeOneSigs
            rw [if_neg hkeep, heq],
          show storeOneTrace tools pid tags c
              = [TraceEv.storeFact (pythonStrip (strOr c.key ""))] from by
            unfold storeOneTrace
            rw [if_neg hkeep, heq]]
        simp [ih1, ih2, ih3]
      · rename_i e heq
        rw [show storeOne tools pid tags c = some ⟨c.key, c.value, c.ctype, false, none⟩ from by
            unfold storeOne
            rw [if_neg hkeep, heq],
          show storeOneSigs tools pid tags c
              = [Signal.errorSig "store_person_fact" (truncMsg e)] from by
            unfold storeOneSigs
            rw [if_neg hkeep, heq],
          show storeOneTrace tools pid tags c
              = [TraceEv.storeFact (pythonStrip (strOr c.key ""))] from by
            unfold storeOneTrace
            rw [if_neg hkeep, heq]]
        simp [ih1, ih2, ih3]

lemma length_bind_le {α β : Type} (f : α → List β) (h : ∀ c, (f c).length ≤ 1) :
    ∀ cs : List α, (cs.flatMap f).length ≤ cs.length := by
  intro cs
  induction cs with
  | nil => simp
  | cons c rest ih =>
    rw [List.flatMap_cons, List.length_append]
    have := h c
    simp only [List.length_cons]
    omega

end StoreLemmas

/-! ## Claim C9 -/

/-- C9: when the coaching decision signals `should_store` and a person is
active, `_run_coach` persists at most 3 memory candidates
(`candidates[:3]`, one persistence call each, and blank-key/value
candidates are skipped): the stored items are exactly the per-candidate
outcomes — each item is a function of its own candidate alone, so one
candidate's failure cannot affect the others — each failing candidate
contributes exactly one `store_person_fact` error signal, and the
aggregate `stored` flag is true if and only if at least one candidate was
stored successfully. -/
theorem C9_store_memory (tools : Tools) (st : OrchState) (sigs : List Signal)
    (d : Decision) (pid : String)
    (hcd : tools.coach_and_decide st.person_context st.stm_utterances st.recent_topics
        "default" st.active_person_id = .ok d)
    (hss : d.should_store.getD false = true)
    (hact : st.active_person_id = some pid) (hpid : pid ≠ "") :
    (ConversationOrchestrator.run_coach tools st sigs).2.1.items
      = ((d.memory_candidates.getD []).take 3).filterMap
          (storeOne tools pid (d.tags.getD [])) ∧
    ((ConversationOrchestrator.run_coach tools st sigs).2.1.stored = true ↔
      ∃ it ∈ (ConversationOrchestrator.run_coach tools st sigs).2.1.items, it.ok = true) ∧
    (ConversationOrchestrator.run_coach tools st sigs).2.1.items.length ≤ 3 ∧
    ((ConversationOrchestrator.run_coach tools st sigs).2.2.2.2.filter isStoreFactEv).length ≤ 3 ∧
    (ConversationOrchestrator.run_coach tools st sigs).2.2.2.1
      = (ConversationOrchestrator.recognize_stage tools st sigs).2.1 ++
        ((d.memory_candidates.getD []).take 3).flatMap
          (storeOneSigs tools pid (d.tags.getD [])) ∧
    (∀ c : Cand, (storeOneSigs tools pid (d.tags.getD []) c).length
      = (storeOne tools pid (d.tags.getD []) c).elim 0 (fun it => if it.ok then 0 else 1)) := by
  obtain ⟨r1, -, -, -, -, -, r7, r8, r9, rtr⟩ :=
    recognize_stage_preserves tools st sigs
  obtain ⟨s1, s2, s3⟩ := store_candidates_eq tools pid (d.tags.getD [])
      ((d.memory_candidates.getD []).take 3)
  have hcond : d.should_store.getD false = true ∧
      optTruthy st.active_person_id = true := by
    refine ⟨hss, ?_⟩
    rw [hact]
    simp [optTruthy, hpid]
  unfold ConversationOrchestrator.run_coach
  dsimp only
  rw [r1, r7, r8, r9, hcd]
  dsimp only
  rw [if_pos hcond, hact]
  simp only [Option.getD_some]
  refine ⟨?_, ?_, ?_, ?_, ?_, ?_⟩
  · exact s1
  · exact List.any_eq_true
  · rw [s1]
    exact le_trans (List.length_filterMap_le _ _)
      (List.length_take_le 3 (d.memory_candidates.getD []))
  · rw [s3]
    rw [List.filter_append, List.filter_append, List.length_append, List.length_append]
    have h1 : (List.filter isStoreFactEv
        (ConversationOrchestrator.recognize_stage tools st sigs).2.2).length = 0 := by
      rcases rtr with h | h <;> rw [h] <;> simp [isStoreFactEv]
    have h2 : (List.filter isStoreFactEv [TraceEv.coachDecide]).length = 0 := by
      simp [isStoreFactEv]
    have h3 : (List.filter isStoreFactEv
        (((d.memory_candidates.getD []).take 3).flatMap
          (storeOneTrace tools pid (d.tags.getD [])))).length ≤ 3 := by
      refine le_trans (List.length_filter_le _ _) ?_
      refine le_trans (length_bind_le _ ?_ _) ?_
      · intro c
        unfold storeOneTrace
        dsimp only
        split
        · simp
        · split <;> simp
      · exact List.length_take_le 3 (d.memory_candidates.getD [])
    omega
  · rw [s2]
  · intro c
    unfold storeOneSigs storeOne
    dsimp only
    split
    · simp
    · split <;> simp

/-- The decision used by the concrete store run: three usable candidates
(the second one will fail to persist, the third has a blank key and is
skipped) plus a fourth beyond the `[:3]` cut. -/
def dStore : Decision :=
  { should_store := some true,
    memory_candidates := some
      [⟨some "background", some "role", some "engineer", none, some "ev1"⟩,
       ⟨some "interest", some "bad", some "skiing", none, some "ev2"⟩,
       ⟨some "other", some "  ", some "dropped", none, none⟩,
       ⟨some "other", some "beyond", some "cut", none, none⟩],
    tags := some [] }

/-- Tools whose fact store raises exactly on the key `"bad"` and whose
coaching decision is `dStore`. -/
def toolsStoreMixed : Tools :=
  ⟨fun _ _ _ => .ok 1, fun _ => .ok 2, fun _ => .ok {},
   fun _ _ _ _ _ => .ok dStore,
   fun _ k _ _ _ _ _ => if k = "bad" then .error "boom" else .ok 5,
   fun _ _ => .ok ()⟩

/-- C9 (witness): on the concrete run, the first candidate is stored, the
second fails and is recorded with `ok := false`, the blank-key candidate
is skipped, the fourth is cut by `[:3]`, and the aggregate flag is true. -/
theorem C9_store_memory_witness :
    (ConversationOrchestrator.run_coach toolsStoreMixed
        { active_person_id := some "p" } []).2.1.items
      = [⟨some "role", some "engineer", some "background", true, some 5⟩,
         ⟨some "bad", some "skiing", some "interest", false, none⟩] ∧
    (ConversationOrchestrator.run_coach toolsStoreMixed
        { active_person_id := some "p" } []).2.1.stored = true := by
  have h := C9_store_memory toolsStoreMixed { active_person_id := some "p" } [] dStore "p"
    rfl rfl rfl (by decide)
  constructor
  · rw [h.1]
    decide
  · refine h.2.1.mpr ?_
    rw [h.1]
    decide
